import Mathlib

/-!
Shallow embedding of the Partisia `swap-router` contract
(`rust/swap-router/src/lib.rs`) together with the parts of `defi-common`
it relies on (`interact_mpc20`, `interact_swap`, `interact_swap_lock_partial`).

Machine integers (`u128` token amounts and route ids, `u64` gas) are modelled
as `Nat`; the contract never performs arithmetic on token amounts, route ids
are incremented from zero once per registered route, and gas arithmetic is
additive, so wrap-around is immaterial for the verified properties.
Rust panics are modelled with `Except String` / `Option`: an invocation that
panics produces no state change and no events.
-/

namespace SwapRouter

/-- Blockchain addresses, modelled as opaque identifiers. -/
abbrev Address := Nat

/-- Token amounts (`u128` in the source). -/
abbrev TokenAmount := Nat

/-- Type of route ids (`u128` in the source). -/
abbrev RouteId := Nat

/-- Gas cost amounts (`u64` in the source). -/
abbrev GasCost := Nat

/-- Modelled from the spec: lock identifiers returned by the swap-lock
collaborator (`defi_common::liquidity_util::LiquidityLockId`, whose defining
module is not part of the analysed sources). Opaque identifiers. -/
abbrev LiquidityLockId := Nat

/-- Largest representable token amount, `TokenAmount::MAX = u128::MAX`. -/
def TokenAmountMAX : TokenAmount := 2 ^ 128 - 1

/-- Modelled from the spec: the data returned by a successful
`acquire_swap_lock` call — "returns a lock id + realized output amount"
(`defi_common::liquidity_util::AcquiredLiquidityLockInformation`, whose
defining module is not part of the analysed sources). -/
structure AcquiredLiquidityLockInformation where
  lock_id : LiquidityLockId
  amount_out : TokenAmount
deriving DecidableEq, Repr

/-- Directional token swap intended along the route (`SwapInformation`). -/
structure SwapInformation where
  swap_address : Address
  token_in : Address
  token_out : Address
deriving DecidableEq, Repr

/-- Information about a lock still to be acquired in a route (`WantedLockInfo`). -/
structure WantedLockInfo where
  swap_info : SwapInformation
  amount_in : TokenAmount
  amount_out_minimum : TokenAmount
deriving DecidableEq, Repr

/-- Information about an acquired lock pending execution (`AcquiredLockInfo`). -/
structure AcquiredLockInfo where
  swap_info : SwapInformation
  lock_id : LiquidityLockId
deriving DecidableEq, Repr

/-- Information about a token withdrawal after executing a lock (`PendingWithdrawInfo`). -/
structure PendingWithdrawInfo where
  swap_address : Address
  withdraw_token : Address
deriving DecidableEq, Repr

/-- A swap contract known by the swap-router (`SwapContractInfo`). -/
structure SwapContractInfo where
  swap_address : Address
  token_a_address : Address
  token_b_address : Address
deriving DecidableEq, Repr

/-- Per-route mutable progress record (`RouteInformation`). The two
`VecDeque`s are modelled as lists whose head is the queue front. -/
structure RouteInformation where
  user : Address
  initial_amount_in : TokenAmount
  initial_token_in : Address
  final_received_amount : TokenAmount
  final_token_out : Address
  locks_wanted : List WantedLockInfo
  locks_waiting_for_execution : List AcquiredLockInfo
  pending_withdraw : Option PendingWithdrawInfo
deriving DecidableEq, Repr

/-- Value-semantics map modelling `pbc_contract_common::avl_tree_map::AvlTreeMap`:
only `get` and `insert` are used by the router. -/
structure AvlTreeMap (K V : Type) where
  entries : List (K × V)
deriving DecidableEq, Repr

/-- Creates an empty map (`AvlTreeMap::new`). -/
def AvlTreeMap.new {K V : Type} : AvlTreeMap K V := ⟨[]⟩

/-- Looks up the value stored at `k` (`AvlTreeMap::get`). -/
def AvlTreeMap.get {K V : Type} [DecidableEq K] (m : AvlTreeMap K V) (k : K) :
    Option V :=
  (m.entries.find? (fun e => decide (e.1 = k))).map Prod.snd

/-- Inserts (or overwrites) the value at `k` (`AvlTreeMap::insert`). -/
def AvlTreeMap.insert {K V : Type} [DecidableEq K] (m : AvlTreeMap K V) (k : K)
    (v : V) : AvlTreeMap K V :=
  ⟨(k, v) :: m.entries.filter (fun e => ! decide (e.1 = k))⟩

/-- The maximum length of the token swap route (`MAX_ROUTE_LENGTH`). -/
def MAX_ROUTE_LENGTH : Nat := 5

/-- Modelled from the spec: `defi_common::permission::Permission` (module not
part of the analysed sources) gates "who is allowed to add swap contracts";
modelled as the set of permitted addresses. -/
structure Permission where
  allowed : List Address
deriving DecidableEq, Repr

/-- Modelled from the spec: whether `sender` holds the permission. -/
def Permission.hasPermissionFor (p : Permission) (sender : Address) : Bool :=
  p.allowed.contains sender

/-- Tracks currently active routes (`RouteTracker`). -/
structure RouteTracker where
  next_route_id : RouteId
  active_routes : AvlTreeMap RouteId RouteInformation
deriving DecidableEq, Repr

/-- Persisted contract state (`RouterState`). -/
structure RouterState where
  permission_add_swap : Permission
  swap_contracts : List SwapContractInfo
  route_tracker : RouteTracker
deriving DecidableEq, Repr

/-- The calling context of an invocation (`ContractContext`; only the fields
the router reads). -/
structure ContractContext where
  sender : Address
  contract_address : Address
deriving DecidableEq, Repr

/-- Callback context (`CallbackContext`): success flag plus the deserialized
return data of the completed calls. -/
structure CallbackContext (α : Type) where
  success : Bool
  results : List α
deriving DecidableEq, Repr

/-- An outgoing interaction built into an event group; one constructor per
collaborator operation the router issues. -/
inductive Event where
  | transfer (token recipient : Address) (amount : TokenAmount)
  | transferFrom (token owner recipient : Address) (amount : TokenAmount)
  | approve (token spender : Address) (amount : TokenAmount)
  | deposit (swap token : Address) (amount : TokenAmount)
  | withdraw (swap token : Address) (amount : TokenAmount) (wait_for_callback : Bool)
  | acquireSwapLock (swap token_in : Address) (amount_in amount_out_minimum : TokenAmount)
  | executeLockSwap (swap : Address) (lock_id : LiquidityLockId)
  | cancelLock (swap : Address) (lock_id : LiquidityLockId)
deriving DecidableEq, Repr

/-- The callback RPCs the router registers on its event groups, one per
`#[callback]` entry point. -/
inductive CallbackRpc where
  | startLockChainCallback (route_id : RouteId)
  | lockRouteCallback (route_id : RouteId)
  | executeRouteCallback (route_id : RouteId) (last_output : TokenAmount)
  | approveCallback (route_id : RouteId) (last_output : TokenAmount)
  | depositCallback (route_id : RouteId)
  | receiveOutputAmountCallback (route_id : RouteId)
  | couldNotAcquireLockError
deriving DecidableEq, Repr

/-- An event group (`EventGroup` / `EventGroupBuilder`): the ordered batch of
interactions, the optional registered callback and the optional gas cost
attached via `with_cost`. -/
structure EventGroup where
  interactions : List Event
  callback : Option CallbackRpc
  callbackCost : Option GasCost
deriving DecidableEq, Repr

/-- Fresh event group builder (`EventGroup::builder`). -/
def EventGroup.builder : EventGroup := ⟨[], none, none⟩

/-- Appends one interaction to the batch (a `.call(..).argument(..).done()`
chain on the builder). -/
def EventGroup.addInteraction (b : EventGroup) (e : Event) : EventGroup :=
  { b with interactions := b.interactions ++ [e] }

/-- Registers the callback RPC (`with_callback_rpc`). -/
def EventGroup.with_callback_rpc (b : EventGroup) (c : CallbackRpc) : EventGroup :=
  { b with callback := some c }

/-- Attaches a gas cost to the registered callback (`with_cost`). -/
def EventGroup.with_cost (b : EventGroup) (c : GasCost) : EventGroup :=
  { b with callbackCost := some c }

/-- An MPC20 token contract handle (`interact_mpc20::MPC20Contract`). -/
structure MPC20Contract where
  contract_address : Address

/-- Creates a handle for the token at `contract_address` (`MPC20Contract::at_address`). -/
def MPC20Contract.at_address (contract_address : Address) : MPC20Contract :=
  ⟨contract_address⟩

/-- Builds a `transfer` interaction with the token contract. -/
def MPC20Contract.transfer (c : MPC20Contract) (b : EventGroup)
    (receiver : Address) (amount : TokenAmount) : EventGroup :=
  b.addInteraction (.transfer c.contract_address receiver amount)

/-- Builds a `transfer_from` interaction with the token contract. -/
def MPC20Contract.transfer_from (c : MPC20Contract) (b : EventGroup)
    (sender receiver : Address) (amount : TokenAmount) : EventGroup :=
  b.addInteraction (.transferFrom c.contract_address sender receiver amount)

/-- Builds an `approve` interaction with the token contract. -/
def MPC20Contract.approve (c : MPC20Contract) (b : EventGroup)
    (approved : Address) (amount : TokenAmount) : EventGroup :=
  b.addInteraction (.approve c.contract_address approved amount)

/-- A liquidity-swap contract handle (`interact_swap::SwapContract`). -/
structure SwapContract where
  contract_address : Address

/-- Creates a handle for the swap contract (`SwapContract::at_address`). -/
def SwapContract.at_address (contract_address : Address) : SwapContract :=
  ⟨contract_address⟩

/-- Builds a `deposit` interaction with the swap contract. -/
def SwapContract.deposit (c : SwapContract) (b : EventGroup)
    (token : Address) (amount : TokenAmount) : EventGroup :=
  b.addInteraction (.deposit c.contract_address token amount)

/-- Builds a `withdraw` interaction with the swap contract. -/
def SwapContract.withdraw (c : SwapContract) (b : EventGroup)
    (token : Address) (amount : TokenAmount) (wait_for_callback : Bool) :
    EventGroup :=
  b.addInteraction (.withdraw c.contract_address token amount wait_for_callback)

/-- A lock-enabled swap contract handle (`interact_swap_lock_partial::SwapLockContract`). -/
structure SwapLockContract where
  swap_address : Address

/-- Creates a handle for the swap-lock contract (`SwapLockContract::at_address`). -/
def SwapLockContract.at_address (swap_address : Address) : SwapLockContract :=
  ⟨swap_address⟩

/-- Builds an `acquire_swap_lock` interaction with the swap-lock contract. -/
def SwapLockContract.acquire_swap_lock (c : SwapLockContract) (b : EventGroup)
    (token_in : Address) (amount_in amount_out_minimum : TokenAmount) :
    EventGroup :=
  b.addInteraction (.acquireSwapLock c.swap_address token_in amount_in amount_out_minimum)

/-- Builds an `execute_lock_swap` interaction with the swap-lock contract. -/
def SwapLockContract.execute_lock_swap (c : SwapLockContract) (b : EventGroup)
    (lock_id : LiquidityLockId) : EventGroup :=
  b.addInteraction (.executeLockSwap c.swap_address lock_id)

/-- Builds a `cancel_lock` interaction with the swap-lock contract. -/
def SwapLockContract.cancel_lock (c : SwapLockContract) (b : EventGroup)
    (lock_id : LiquidityLockId) : EventGroup :=
  b.addInteraction (.cancelLock c.swap_address lock_id)

/-- Applies `f` to the last element of a list, mirroring `VecDeque::back_mut`. -/
def modifyLast {α : Type} (f : α → α) : List α → List α
  | [] => []
  | [x] => [f x]
  | x :: y :: rest => x :: modifyLast f (y :: rest)

/-- Readies lock information along a route for execution
(`RouteInformation::new`). The source unwraps `route.first()`, so an empty
route is a panic, modelled as `none`. -/
def RouteInformation.new (route : List SwapInformation)
    (initial_amount_in amount_out_minimum : TokenAmount) (user : Address) :
    Option RouteInformation :=
  match route.head?, route.getLast? with
  | some first, some last =>
    let locks0 := route.map (fun swap_info =>
      WantedLockInfo.mk swap_info 0 0)
    let locks1 := locks0.modifyHead (fun l => { l with amount_in := initial_amount_in })
    let locks2 := modifyLast (fun l => { l with amount_out_minimum := amount_out_minimum }) locks1
    some { user := user
           initial_amount_in := initial_amount_in
           initial_token_in := first.token_in
           final_received_amount := 0
           final_token_out := last.token_out
           locks_wanted := locks2
           locks_waiting_for_execution := []
           pending_withdraw := none }
  | _, _ => none

/-- Removes and returns the next lock to be acquired
(`RouteInformation::pop_next_wanted_lock`), together with the updated record. -/
def RouteInformation.pop_next_wanted_lock (r : RouteInformation) :
    Option (WantedLockInfo × RouteInformation) :=
  r.locks_wanted.head?.map (fun w => (w, { r with locks_wanted := r.locks_wanted.tail }))

/-- Peeks the next lock to be acquired (`RouteInformation::peek_next_wanted_lock`). -/
def RouteInformation.peek_next_wanted_lock (r : RouteInformation) :
    Option WantedLockInfo :=
  r.locks_wanted.head?

/-- Appends a newly acquired lock at the back of the execution queue
(`RouteInformation::update_next_pending_lock_id`). -/
def RouteInformation.update_next_pending_lock_id (r : RouteInformation)
    (swap_info : SwapInformation) (lock_id : LiquidityLockId) : RouteInformation :=
  { r with locks_waiting_for_execution :=
      r.locks_waiting_for_execution ++ [AcquiredLockInfo.mk swap_info lock_id] }

/-- Rewrites the `amount_in` of the front wanted lock, if any
(`RouteInformation::update_next_wanted_lock_amount_in`). -/
def RouteInformation.update_next_wanted_lock_amount_in (r : RouteInformation)
    (amount_in : TokenAmount) : RouteInformation :=
  { r with locks_wanted := r.locks_wanted.modifyHead (fun l => { l with amount_in := amount_in }) }

/-- Peeks the next lock to be executed (`RouteInformation::peek_next_pending_lock`). -/
def RouteInformation.peek_next_pending_lock (r : RouteInformation) :
    Option AcquiredLockInfo :=
  r.locks_waiting_for_execution.head?

/-- Removes and returns the next lock to be executed
(`RouteInformation::take_next_pending_lock`), together with the updated record. -/
def RouteInformation.take_next_pending_lock (r : RouteInformation) :
    Option (AcquiredLockInfo × RouteInformation) :=
  r.locks_waiting_for_execution.head?.map (fun p =>
    (p, { r with locks_waiting_for_execution := r.locks_waiting_for_execution.tail }))

/-- Records a pending withdrawal (`RouteInformation::update_pending_withdraw`). -/
def RouteInformation.update_pending_withdraw (r : RouteInformation)
    (pending_withdraw : PendingWithdrawInfo) : RouteInformation :=
  { r with pending_withdraw := some pending_withdraw }

/-- Removes and returns the pending withdrawal
(`RouteInformation::take_pending_withdraw`), together with the updated record. -/
def RouteInformation.take_pending_withdraw (r : RouteInformation) :
    Option (PendingWithdrawInfo × RouteInformation) :=
  r.pending_withdraw.map (fun pw => (pw, { r with pending_withdraw := none }))

/-- Updates the final output amount (`RouteInformation::update_final_amount_out`). -/
def RouteInformation.update_final_amount_out (r : RouteInformation)
    (amount_out : TokenAmount) : RouteInformation :=
  { r with final_received_amount := amount_out }

/-- Creates a new route tracker with `next_route_id` 0 (`RouteTracker::new`). -/
def RouteTracker.new : RouteTracker :=
  ⟨0, AvlTreeMap.new⟩

/-- Returns an id for a new route and bumps the counter
(`RouteTracker::next_route_id`). -/
def RouteTracker.nextRouteId (t : RouteTracker) : RouteId × RouteTracker :=
  (t.next_route_id, { t with next_route_id := t.next_route_id + 1 })

/-- Adds a new active route with a unique id (`RouteTracker::add_route`).
Fails (panics in the source) when the route is empty. -/
def RouteTracker.add_route (t : RouteTracker) (route : List SwapInformation)
    (amount_in minimum_amount_out : TokenAmount) (user : Address) :
    Option (RouteId × RouteTracker) :=
  let (route_id, t2) := t.nextRouteId
  (RouteInformation.new route amount_in minimum_amount_out user).map
    (fun route_info =>
      (route_id, { t2 with active_routes := t2.active_routes.insert route_id route_info }))

/-- Retrieves the route associated with `route_id` (`RouteTracker::get_route`);
`none` models the source's panic on a missing route. -/
def RouteTracker.get_route (t : RouteTracker) (route_id : RouteId) :
    Option RouteInformation :=
  t.active_routes.get route_id

/-- Fetch–mutate–write-back helper (`RouteTracker::modify_route`); the mutator
may itself fail (the source closures unwrap), failing the whole invocation. -/
def RouteTracker.modify_route {T : Type} (t : RouteTracker) (route_id : RouteId)
    (f : RouteInformation → Option (RouteInformation × T)) :
    Option (RouteTracker × T) :=
  match t.get_route route_id with
  | none => none
  | some route =>
    match f route with
    | none => none
    | some (route2, result_value) =>
      some ({ t with active_routes := t.active_routes.insert route_id route2 },
            result_value)

/-- Gas amount covering `start_lock_chain_callback`
(`INTERNAL_GAS_COST_START_LOCK_CHAIN_CALLBACK`). -/
def INTERNAL_GAS_COST_START_LOCK_CHAIN_CALLBACK : GasCost := 1500

/-- Gas amount covering `lock_route_callback`
(`INTERNAL_GAS_COST_LOCK_ROUTE_CALLBACK`). -/
def INTERNAL_GAS_COST_LOCK_ROUTE_CALLBACK : GasCost := 1500

/-- Gas amount covering `approve_callback`
(`INTERNAL_GAS_COST_APPROVE_CALLBACK`). -/
def INTERNAL_GAS_COST_APPROVE_CALLBACK : GasCost := 1500

/-- Gas amount covering `deposit_callback`
(`INTERNAL_GAS_COST_DEPOSIT_CALLBACK`). -/
def INTERNAL_GAS_COST_DEPOSIT_CALLBACK : GasCost := 1500

/-- Gas amount covering `receive_output_amount_callback`
(`INTERNAL_GAS_COST_RECEIVE_OUTPUT_AMOUNT_CALLBACK`). -/
def INTERNAL_GAS_COST_RECEIVE_OUTPUT_AMOUNT_CALLBACK : GasCost := 1500

/-- Gas amount covering `execute_route_callback`
(`INTERNAL_GAS_COST_EXECUTE_ROUTE_CALLBACK`). -/
def INTERNAL_GAS_COST_EXECUTE_ROUTE_CALLBACK : GasCost := 1500

/-- Gas amount covering `could_not_acquire_lock_error`
(`INTERNAL_GAS_COST_CANCEL_LOCK_ERROR_CALLBACK`). -/
def INTERNAL_GAS_COST_CANCEL_LOCK_ERROR_CALLBACK : GasCost := 1500

/-- Modelled from the spec: the collaborator gas-cost constants referenced by
`calculate_min_total_gas_cost` (`SwapLockContract::GAS_COST_*`,
`SwapContract::GAS_COST_*`, `MPC20Contract::GAS_COST_*`) are declared in
`defi-common` modules not part of the analysed sources; they are kept
symbolic, so every theorem about the gas calculator holds for all values. -/
structure GasConstants where
  GAS_COST_ACQUIRE_SWAP_LOCK : GasCost
  GAS_COST_CANCEL_LOCK : GasCost
  GAS_COST_EXECUTE_LOCK : GasCost
  GAS_COST_DEPOSIT : GasCost
  GAS_COST_WITHDRAW : GasCost
  GAS_COST_APPROVE : GasCost
  GAS_COST_TRANSFER : GasCost
deriving DecidableEq, Repr

/-- Worst-case minimum gas for a route of `number_of_swaps` hops to reach a
terminal state (`calculate_min_total_gas_cost`). -/
def calculate_min_total_gas_cost (gc : GasConstants) (number_of_swaps : Nat) :
    GasCost :=
  let acquire_lock_cost :=
    gc.GAS_COST_ACQUIRE_SWAP_LOCK + INTERNAL_GAS_COST_LOCK_ROUTE_CALLBACK
  let cancel_locks_cost := (number_of_swaps + 1) * gc.GAS_COST_CANCEL_LOCK
    + INTERNAL_GAS_COST_CANCEL_LOCK_ERROR_CALLBACK
  let execute_lock_cost :=
    gc.GAS_COST_APPROVE + INTERNAL_GAS_COST_APPROVE_CALLBACK
      + gc.GAS_COST_DEPOSIT + INTERNAL_GAS_COST_DEPOSIT_CALLBACK
      + gc.GAS_COST_EXECUTE_LOCK + INTERNAL_GAS_COST_RECEIVE_OUTPUT_AMOUNT_CALLBACK
      + gc.GAS_COST_WITHDRAW + INTERNAL_GAS_COST_EXECUTE_ROUTE_CALLBACK
  let total_acquire_cost :=
    INTERNAL_GAS_COST_START_LOCK_CHAIN_CALLBACK
      + (number_of_swaps + 1) * acquire_lock_cost
  let total_execute_cost :=
    number_of_swaps * execute_lock_cost + gc.GAS_COST_TRANSFER
  max (total_acquire_cost + total_execute_cost)
    (total_acquire_cost + cancel_locks_cost)

/-- Walks `swap_route`, resolving each pool address against the known swap
contracts and chaining tokens (the loop body of `validate_route_and_add_info`).
Returns the resolved hops together with the final chained output token. -/
def validateRouteAux (known_swap_contracts : List SwapContractInfo)
    (prev_output_token : Address) :
    List Address → Except String (List SwapInformation × Address)
  | [] => Except.ok ([], prev_output_token)
  | swap_address :: rest =>
    match known_swap_contracts.find?
        (fun contract_info => decide (contract_info.swap_address = swap_address)) with
    | none => Except.error "Unknown swap address."
    | some swap_info =>
      if prev_output_token = swap_info.token_a_address then
        match validateRouteAux known_swap_contracts swap_info.token_b_address rest with
        | Except.error e => Except.error e
        | Except.ok (tail, final_token) =>
          Except.ok
            (SwapInformation.mk swap_address swap_info.token_a_address
              swap_info.token_b_address :: tail, final_token)
      else if prev_output_token = swap_info.token_b_address then
        match validateRouteAux known_swap_contracts swap_info.token_a_address rest with
        | Except.error e => Except.error e
        | Except.ok (tail, final_token) =>
          Except.ok
            (SwapInformation.mk swap_address swap_info.token_b_address
              swap_info.token_a_address :: tail, final_token)
      else
        Except.error "No tokens at swap contract matches the chained token."

/-- Validates that tokens match for all swaps in `swap_route` and that start
and end match `token_in` and `token_out` (`validate_route_and_add_info`);
errors model the source's panics. -/
def validate_route_and_add_info (swap_route : List Address)
    (known_swap_contracts : List SwapContractInfo)
    (token_in token_out : Address) : Except String (List SwapInformation) :=
  if swap_route.length > MAX_ROUTE_LENGTH then
    Except.error "Swap route length is greater than maximum allowed."
  else
    match validateRouteAux known_swap_contracts token_in swap_route with
    | Except.error e => Except.error e
    | Except.ok (res, prev_output_token) =>
      if token_out = prev_output_token then Except.ok res
      else Except.error "The output token from the swap route does not match the intended output."

/-- Builds the event set freeing acquired locks and returning tokens to the
owner (`build_events_cancel_route`). -/
def build_events_cancel_route (event_builder : EventGroup)
    (route : RouteInformation) : EventGroup :=
  let b1 := route.locks_waiting_for_execution.foldl
    (fun b lockInfo =>
      (SwapLockContract.at_address lockInfo.swap_info.swap_address).cancel_lock
        b lockInfo.lock_id)
    event_builder
  let b2 := (MPC20Contract.at_address route.initial_token_in).transfer b1
    route.user route.initial_amount_in
  b2.with_callback_rpc CallbackRpc.couldNotAcquireLockError

/-- Builds the events acquiring one lock, with the router's lock handler as
callback (`build_acquire_lock_events`). -/
def build_acquire_lock_events (event_builder : EventGroup)
    (lock_info : WantedLockInfo) (route_id : RouteId) : EventGroup :=
  ((SwapLockContract.at_address lock_info.swap_info.swap_address).acquire_swap_lock
      event_builder lock_info.swap_info.token_in lock_info.amount_in
      lock_info.amount_out_minimum).with_callback_rpc
    (CallbackRpc.lockRouteCallback route_id)

/-- Builds the approval event for swap execution with the max possible
approval amount (`build_max_approve_event_for_execute`). -/
def build_max_approve_event_for_execute (event_builder : EventGroup)
    (pending_lock : AcquiredLockInfo) : EventGroup :=
  (MPC20Contract.at_address pending_lock.swap_info.token_in).approve
    event_builder pending_lock.swap_info.swap_address TokenAmountMAX

/-- Builds the approve event plus the continuation starting the deposit for
one pending lock (`build_execute_approve_events`). -/
def build_execute_approve_events (event_builder : EventGroup)
    (pending_lock : AcquiredLockInfo) (route_id : RouteId)
    (approval_amount : TokenAmount) : EventGroup :=
  (build_max_approve_event_for_execute event_builder pending_lock).with_callback_rpc
    (CallbackRpc.approveCallback route_id approval_amount)

/-- Contract initialization (`initialize` in the source; the name is adjusted
because `initialize` is a Lean keyword). -/
def initializeContract (_context : ContractContext)
    (permission_add_swap : Permission)
    (swap_contracts : List SwapContractInfo) :
    RouterState × List EventGroup :=
  ({ permission_add_swap := permission_add_swap
     swap_contracts := swap_contracts
     route_tracker := RouteTracker.new }, [])

/-- Entry point registering and starting a route (`route_swap`). -/
def route_swap (gc : GasConstants) (context : ContractContext)
    (state : RouterState) (swap_route : List Address)
    (token_in token_out : Address)
    (amount_in amount_out_minimum : TokenAmount) :
    Except String (RouterState × List EventGroup) :=
  if swap_route.isEmpty then Except.error "The given route is empty."
  else
    match validate_route_and_add_info swap_route state.swap_contracts token_in token_out with
    | Except.error e => Except.error e
    | Except.ok route =>
      let route_length := route.length
      match state.route_tracker.add_route route amount_in amount_out_minimum
          context.sender with
      | none => Except.error "The given route is empty."
      | some (route_id, tracker2) =>
        let state2 := { state with route_tracker := tracker2 }
        match tracker2.get_route route_id with
        | none => Except.error "No route registered for the id."
        | some route_information =>
          let b := (MPC20Contract.at_address route_information.initial_token_in).transfer_from
            EventGroup.builder route_information.user context.contract_address
            route_information.initial_amount_in
          let total_cost := calculate_min_total_gas_cost gc route_length
          let b2 := (b.with_callback_rpc
            (CallbackRpc.startLockChainCallback route_id)).with_cost total_cost
          Except.ok (state2, [b2])

/-- Callback starting the lock chain once custody of the tokens is taken
(`start_lock_chain_callback`). -/
def start_lock_chain_callback (callback_context : CallbackContext Unit)
    (state : RouterState) (route_id : RouteId) :
    Except String (RouterState × List EventGroup) :=
  if ! callback_context.success then
    Except.error "Could not take control of tokens."
  else
    match state.route_tracker.get_route route_id with
    | none => Except.error "No route registered for the id."
    | some route =>
      match route.peek_next_wanted_lock with
      | none => Except.error "No wanted lock to acquire."
      | some lock_info =>
        Except.ok (state, [build_acquire_lock_events EventGroup.builder lock_info route_id])

/-- The route mutation performed by `lock_route_callback` on the fetched
record (the closure passed to `modify_route` in the source). -/
def lock_route_step
    (callback_context : CallbackContext AcquiredLiquidityLockInformation)
    (route_id : RouteId) (route_information : RouteInformation) :
    Option (RouteInformation × EventGroup) :=
  if ! callback_context.success then
    some (route_information,
      build_events_cancel_route EventGroup.builder route_information)
  else
    let step1 : Option RouteInformation :=
      match callback_context.results.head? with
      | none => some route_information
      | some acquired_lock_info =>
        match route_information.pop_next_wanted_lock with
        | none => none
        | some (wanted_lock_for_acquired, r1) =>
          let r2 := r1.update_next_wanted_lock_amount_in acquired_lock_info.amount_out
          some (r2.update_next_pending_lock_id wanted_lock_for_acquired.swap_info
            acquired_lock_info.lock_id)
    match step1 with
    | none => none
    | some r =>
      match r.peek_next_wanted_lock with
      | some lock_info =>
        some (r, build_acquire_lock_events EventGroup.builder lock_info route_id)
      | none =>
        match r.peek_next_pending_lock with
        | none => none
        | some pending_lock =>
          some (r, build_execute_approve_events EventGroup.builder pending_lock
            route_id r.initial_amount_in)

/-- Callback handling the acquisition of all locks along a route
(`lock_route_callback`). -/
def lock_route_callback
    (callback_context : CallbackContext AcquiredLiquidityLockInformation)
    (state : RouterState) (route_id : RouteId) :
    Except String (RouterState × List EventGroup) :=
  match state.route_tracker.modify_route route_id
      (lock_route_step callback_context route_id) with
  | none => Except.error "No route registered for the id."
  | some (tracker2, eg) =>
    Except.ok ({ state with route_tracker := tracker2 }, [eg])

/-- The route mutation performed by `execute_route_callback` on the fetched
record. -/
def execute_route_step (route_id : RouteId) (last_output : TokenAmount)
    (route_information : RouteInformation) :
    Option (RouteInformation × EventGroup) :=
  match route_information.peek_next_pending_lock with
  | some pending_lock =>
    some (route_information, build_execute_approve_events EventGroup.builder
      pending_lock route_id last_output)
  | none =>
    some (route_information,
      (MPC20Contract.at_address route_information.final_token_out).transfer
        EventGroup.builder route_information.user
        route_information.final_received_amount)

/-- Callback executing all acquired locks along a route
(`execute_route_callback`). -/
def execute_route_callback (state : RouterState) (route_id : RouteId)
    (last_output : TokenAmount) :
    Except String (RouterState × List EventGroup) :=
  match state.route_tracker.modify_route route_id
      (execute_route_step route_id last_output) with
  | none => Except.error "No route registered for the id."
  | some (tracker2, eg) =>
    Except.ok ({ state with route_tracker := tracker2 }, [eg])

/-- Callback issuing the deposit after a swap-contract approval completed
(`approve_callback`). -/
def approve_callback (state : RouterState) (route_id : RouteId)
    (last_output : TokenAmount) :
    Except String (RouterState × List EventGroup) :=
  match state.route_tracker.modify_route route_id
      (fun route_information =>
        route_information.peek_next_pending_lock.map
          (fun p => (route_information, p))) with
  | none => Except.error "No pending lock to execute."
  | some (tracker2, pending_lock) =>
    let b := (SwapContract.at_address pending_lock.swap_info.swap_address).deposit
      EventGroup.builder pending_lock.swap_info.token_in last_output
    let b2 := b.with_callback_rpc (CallbackRpc.depositCallback route_id)
    Except.ok ({ state with route_tracker := tracker2 }, [b2])

/-- The route mutation performed by `deposit_callback` on the fetched record. -/
def deposit_step (route_id : RouteId) (route_information : RouteInformation) :
    Option (RouteInformation × EventGroup) :=
  match route_information.take_next_pending_lock with
  | none => none
  | some (pending_lock, r1) =>
    let b := (SwapLockContract.at_address pending_lock.swap_info.swap_address).execute_lock_swap
      EventGroup.builder pending_lock.lock_id
    let b2 := b.with_callback_rpc (CallbackRpc.receiveOutputAmountCallback route_id)
    let pending_withdraw := PendingWithdrawInfo.mk
      pending_lock.swap_info.swap_address pending_lock.swap_info.token_out
    some (r1.update_pending_withdraw pending_withdraw, b2)

/-- Callback executing the next pending lock after its deposit completed
(`deposit_callback`). -/
def deposit_callback (state : RouterState) (route_id : RouteId) :
    Except String (RouterState × List EventGroup) :=
  match state.route_tracker.modify_route route_id (deposit_step route_id) with
  | none => Except.error "No route registered for the id."
  | some (tracker2, eg) =>
    Except.ok ({ state with route_tracker := tracker2 }, [eg])

/-- Callback withdrawing the realized output of an executed lock
(`receive_output_amount_callback`). -/
def receive_output_amount_callback (callback_context : CallbackContext TokenAmount)
    (state : RouterState) (route_id : RouteId) :
    Except String (RouterState × List EventGroup) :=
  match callback_context.results.getLast? with
  | none => Except.error "No execution result."
  | some received_amount =>
    match state.route_tracker.modify_route route_id
        (fun route_information =>
          (route_information.update_final_amount_out received_amount).take_pending_withdraw.map
            (fun pr => (pr.2, pr.1))) with
    | none => Except.error "No pending withdraw."
    | some (tracker2, pending_withdraw) =>
      let b := (SwapContract.at_address pending_withdraw.swap_address).withdraw
        EventGroup.builder pending_withdraw.withdraw_token received_amount true
      let b2 := b.with_callback_rpc
        (CallbackRpc.executeRouteCallback route_id received_amount)
      Except.ok ({ state with route_tracker := tracker2 }, [b2])

/-- Callback that unconditionally panics after lock cancellation
(`could_not_acquire_lock_error`). -/
def could_not_acquire_lock_error (_state : RouterState) :
    Except String (RouterState × List EventGroup) :=
  Except.error "Could not acquire all locks in route."

/-- Permissioned registration of a new swap contract (`add_swap_contract`). -/
def add_swap_contract (context : ContractContext) (state : RouterState)
    (swap_address token_a_address token_b_address : Address) :
    Except String (RouterState × List EventGroup) :=
  if state.permission_add_swap.hasPermissionFor context.sender then
    Except.ok ({ state with swap_contracts := state.swap_contracts
      ++ [SwapContractInfo.mk swap_address token_a_address token_b_address] }, [])
  else
    Except.error "Sender lacks permission to add swap."

/-- One invocation of any of the contract's entry points, with its arguments. -/
inductive ContractInvocation where
  | routeSwap (context : ContractContext) (swap_route : List Address)
      (token_in token_out : Address) (amount_in amount_out_minimum : TokenAmount)
  | startLockChain (callback_context : CallbackContext Unit) (route_id : RouteId)
  | lockRoute (callback_context : CallbackContext AcquiredLiquidityLockInformation)
      (route_id : RouteId)
  | executeRoute (route_id : RouteId) (last_output : TokenAmount)
  | approveStep (route_id : RouteId) (last_output : TokenAmount)
  | depositStep (route_id : RouteId)
  | receiveOutputAmount (callback_context : CallbackContext TokenAmount)
      (route_id : RouteId)
  | couldNotAcquireLock
  | addSwapContract (context : ContractContext)
      (swap_address token_a_address token_b_address : Address)

/-- Dispatches one invocation to its handler; an error models a panic. -/
def invokeRaw (gc : GasConstants) (state : RouterState) :
    ContractInvocation → Except String (RouterState × List EventGroup)
  | .routeSwap context swap_route token_in token_out amount_in amount_out_minimum =>
    route_swap gc context state swap_route token_in token_out amount_in amount_out_minimum
  | .startLockChain callback_context route_id =>
    start_lock_chain_callback callback_context state route_id
  | .lockRoute callback_context route_id =>
    lock_route_callback callback_context state route_id
  | .executeRoute route_id last_output =>
    execute_route_callback state route_id last_output
  | .approveStep route_id last_output =>
    approve_callback state route_id last_output
  | .depositStep route_id =>
    deposit_callback state route_id
  | .receiveOutputAmount callback_context route_id =>
    receive_output_amount_callback callback_context state route_id
  | .couldNotAcquireLock =>
    could_not_acquire_lock_error state
  | .addSwapContract context swap_address token_a_address token_b_address =>
    add_swap_contract context state swap_address token_a_address token_b_address

/-- Transaction semantics of an invocation: a panic (error) aborts it, leaving
the persisted state exactly as at entry and emitting no events. -/
def invoke (gc : GasConstants) (state : RouterState)
    (op : ContractInvocation) : RouterState × List EventGroup :=
  match invokeRaw gc state op with
  | Except.ok res => res
  | Except.error _ => (state, [])

/-! Helper lemmas about the map and list operations of the embedding. -/

theorem find?_filter_ne {K V : Type} [DecidableEq K] (k k' : K) (h : k' ≠ k) :
    ∀ l : List (K × V),
      (l.filter (fun e => ! decide (e.1 = k))).find? (fun e => decide (e.1 = k'))
        = l.find? (fun e => decide (e.1 = k'))
  | [] => rfl
  | x :: t => by
    by_cases hx : x.1 = k
    · have hx2 : ¬ (x.1 = k') := by
        rw [hx]; exact fun hh => h hh.symm
      rw [List.filter_cons, if_neg (by simp [hx]),
        find?_filter_ne k k' h t,
        List.find?_cons_of_neg _ (by simp [hx2])]
    · by_cases hx2 : x.1 = k'
      · rw [List.filter_cons, if_pos (by simp [hx]),
          List.find?_cons_of_pos _ (by simp [hx2]),
          List.find?_cons_of_pos _ (by simp [hx2])]
      · rw [List.filter_cons, if_pos (by simp [hx]),
          List.find?_cons_of_neg _ (by simp [hx2]),
          List.find?_cons_of_neg _ (by simp [hx2]),
          find?_filter_ne k k' h t]

theorem AvlTreeMap.get_insert {K V : Type} [DecidableEq K]
    (m : AvlTreeMap K V) (k k' : K) (v : V) :
    (m.insert k v).get k' = if k' = k then some v else m.get k' := by
  by_cases h : k' = k
  · subst h
    simp only [AvlTreeMap.insert, AvlTreeMap.get, if_pos rfl]
    rw [List.find?_cons_of_pos _ (by simp)]
    rfl
  · have hk : ¬ (k = k') := fun hh => h hh.symm
    simp only [AvlTreeMap.insert, AvlTreeMap.get, if_neg h]
    rw [List.find?_cons_of_neg _ (by simp [hk]),
      find?_filter_ne k k' h m.entries]

theorem map_modifyHead {α β : Type} (f : α → α) (g : α → β)
    (h : ∀ x, g (f x) = g x) : ∀ l : List α, (l.modifyHead f).map g = l.map g
  | [] => rfl
  | x :: t => by simp [List.modifyHead, h]

theorem map_modifyLast {α β : Type} (f : α → α) (g : α → β)
    (h : ∀ x, g (f x) = g x) : ∀ l : List α, (modifyLast f l).map g = l.map g
  | [] => rfl
  | [x] => by simp [modifyLast, h]
  | x :: y :: t => by
    simp only [modifyLast, List.map]
    rw [show (modifyLast f (y :: t)).map g = (y :: t).map g from
      map_modifyLast f g h (y :: t)]
    simp

theorem getLast?_modifyLast {α : Type} (f : α → α) :
    ∀ l : List α, (modifyLast f l).getLast? = l.getLast?.map f
  | [] => rfl
  | [x] => by simp [modifyLast]
  | x :: y :: t => by
    cases t with
    | nil => simp [modifyLast]
    | cons z zs =>
      have ih := getLast?_modifyLast f (y :: z :: zs)
      show (x :: modifyLast f (y :: z :: zs)).getLast? = _
      rw [show modifyLast f (y :: z :: zs)
          = y :: modifyLast f (z :: zs) from rfl] at ih ⊢
      rw [List.getLast?_cons_cons, ih, List.getLast?_cons_cons (a := x)]

theorem head?_modifyHead {α : Type} (f : α → α) :
    ∀ l : List α, (l.modifyHead f).head? = l.head?.map f
  | [] => rfl
  | x :: t => by simp [List.modifyHead]

theorem cancel_fold (locks : List AcquiredLockInfo) : ∀ b : EventGroup,
    locks.foldl
      (fun b lockInfo =>
        (SwapLockContract.at_address lockInfo.swap_info.swap_address).cancel_lock
          b lockInfo.lock_id) b
      = { b with interactions := b.interactions
          ++ locks.map (fun l => Event.cancelLock l.swap_info.swap_address l.lock_id) } := by
  induction locks with
  | nil => intro b; simp
  | cons x t ih =>
    intro b
    simp only [List.foldl, List.map]
    rw [ih]
    simp [SwapLockContract.cancel_lock, SwapLockContract.at_address,
      EventGroup.addInteraction]

/-- Hops chain correctly starting from token `prev` and ending at token
`final_token`: each hop consumes the previous hop's output token. -/
def chainedFrom (prev : Address) : List SwapInformation → Address → Prop
  | [], final_token => final_token = prev
  | h :: t, final_token => h.token_in = prev ∧ chainedFrom h.token_out t final_token

theorem validateRouteAux_ok :
    ∀ (l : List Address) (known : List SwapContractInfo)
      (prev : Address) (res : List SwapInformation) (final_token : Address),
      validateRouteAux known prev l = Except.ok (res, final_token) →
      res.length = l.length ∧ chainedFrom prev res final_token := by
  intro l
  induction l with
  | nil =>
    intro known prev res final_token h
    simp only [validateRouteAux] at h
    obtain ⟨h1, h2⟩ : ([] : List SwapInformation) = res ∧ prev = final_token := by
      simpa using h
    subst h1; subst h2
    exact ⟨rfl, rfl⟩
  | cons a t ih =>
    intro known prev res final_token h
    simp only [validateRouteAux] at h
    cases hfind : known.find? (fun contract_info => decide (contract_info.swap_address = a)) with
    | none =>
      simp only [hfind] at h
      exact absurd h (by simp)
    | some swap_info =>
      simp only [hfind] at h
      by_cases ha : prev = swap_info.token_a_address
      · rw [if_pos ha] at h
        cases hrec : validateRouteAux known swap_info.token_b_address t with
        | error e =>
          simp only [hrec] at h
          exact absurd h (by simp)
        | ok pr =>
          obtain ⟨tail, fin⟩ := pr
          simp only [hrec] at h
          obtain ⟨h1, h2⟩ : SwapInformation.mk a swap_info.token_a_address
              swap_info.token_b_address :: tail = res ∧ fin = final_token := by
            simpa using h
          subst h2
          obtain ⟨hlen, hchain⟩ := ih known swap_info.token_b_address tail fin hrec
          subst h1
          exact ⟨by simp [hlen], ha.symm, hchain⟩
      · rw [if_neg ha] at h
        by_cases hb : prev = swap_info.token_b_address
        · rw [if_pos hb] at h
          cases hrec : validateRouteAux known swap_info.token_a_address t with
          | error e =>
            simp only [hrec] at h
            exact absurd h (by simp)
          | ok pr =>
            obtain ⟨tail, fin⟩ := pr
            simp only [hrec] at h
            obtain ⟨h1, h2⟩ : SwapInformation.mk a swap_info.token_b_address
                swap_info.token_a_address :: tail = res ∧ fin = final_token := by
              simpa using h
            subst h2
            obtain ⟨hlen, hchain⟩ := ih known swap_info.token_a_address tail fin hrec
            subst h1
            exact ⟨by simp [hlen], hb.symm, hchain⟩
        · rw [if_neg hb] at h
          exact absurd h (by simp)

theorem chainedFrom_adjacent :
    ∀ (res : List SwapInformation) (prev final_token : Address),
      chainedFrom prev res final_token →
      ∀ i (hi : i + 1 < res.length),
        (res.get ⟨i, Nat.lt_of_succ_lt hi⟩).token_out
          = (res.get ⟨i + 1, hi⟩).token_in := by
  intro res
  induction res with
  | nil => intro prev final_token _ i hi; exact absurd hi (by simp)
  | cons h t ih =>
    intro prev final_token hc i hi
    obtain ⟨hin, hrest⟩ := hc
    cases i with
    | zero =>
      cases t with
      | nil => exact absurd hi (by simp)
      | cons h2 t2 => exact hrest.1.symm
    | succ j =>
      exact ih h.token_out final_token hrest j (Nat.lt_of_succ_lt_succ hi)

theorem chainedFrom_head (res : List SwapInformation)
    (prev final_token : Address) (hc : chainedFrom prev res final_token) :
    ∀ first, res.head? = some first → first.token_in = prev := by
  cases res with
  | nil => intro first hh; exact absurd hh (by simp)
  | cons h t =>
    intro first hh
    have hfh : h = first := by simpa using hh
    rw [← hfh]
    exact hc.1

theorem chainedFrom_last :
    ∀ (res : List SwapInformation) (prev final_token : Address),
      chainedFrom prev res final_token →
      ∀ lastHop, res.getLast? = some lastHop → lastHop.token_out = final_token := by
  intro res
  induction res with
  | nil => intro prev final_token _ lastHop hh; exact absurd hh (by simp)
  | cons h t ih =>
    intro prev final_token hc lastHop hh
    cases t with
    | nil =>
      have hlh : h = lastHop := by simpa using hh
      rw [← hlh]
      exact hc.2.symm
    | cons h2 t2 =>
      exact ih h.token_out final_token hc.2 lastHop (by simpa using hh)

/-- C2. For every pool-address list, requested input token and requested
output token on which the route validator succeeds, the returned hop sequence
has the same length as the input list, adjacent hops chain
(`hop[i].token_out = hop[i+1].token_in`), the first hop consumes the
requested input token, and the last hop produces the requested output token. -/
theorem validator_chains_tokens (swap_route : List Address)
    (known_swap_contracts : List SwapContractInfo)
    (token_in token_out : Address) (res : List SwapInformation)
    (h : validate_route_and_add_info swap_route known_swap_contracts token_in token_out
      = Except.ok res) :
    res.length = swap_route.length
    ∧ (∀ i (hi : i + 1 < res.length),
        (res.get ⟨i, Nat.lt_of_succ_lt hi⟩).token_out
          = (res.get ⟨i + 1, hi⟩).token_in)
    ∧ (∀ first, res.head? = some first → first.token_in = token_in)
    ∧ (∀ lastHop, res.getLast? = some lastHop → lastHop.token_out = token_out) := by
  simp only [validate_route_and_add_info] at h
  by_cases hlen : swap_route.length > MAX_ROUTE_LENGTH
  · rw [if_pos hlen] at h; exact absurd h (by simp)
  · rw [if_neg hlen] at h
    cases haux : validateRouteAux known_swap_contracts token_in swap_route with
    | error e =>
      simp only [haux] at h
      exact absurd h (by simp)
    | ok pr =>
      obtain ⟨res0, prev_output_token⟩ := pr
      simp only [haux] at h
      by_cases hout : token_out = prev_output_token
      · rw [if_pos hout] at h
        have hres : res0 = res := by simpa using h
        subst hres
        obtain ⟨hlen2, hchain⟩ :=
          validateRouteAux_ok swap_route known_swap_contracts token_in res0
            prev_output_token haux
        refine ⟨hlen2, chainedFrom_adjacent res0 token_in prev_output_token hchain,
          chainedFrom_head res0 token_in prev_output_token hchain, ?_⟩
        intro lastHop hlast
        rw [hout]
        exact chainedFrom_last res0 token_in prev_output_token hchain lastHop hlast
      · rw [if_neg hout] at h
        exact absurd h (by simp)

/-- Witness for C2: a concrete two-pool route validates and satisfies the
chaining properties. -/
theorem validator_chains_tokens_witness :
    ∃ res, validate_route_and_add_info [100, 101]
        [SwapContractInfo.mk 100 1 2, SwapContractInfo.mk 101 2 3] 1 3
        = Except.ok res
      ∧ res.length = 2
      ∧ (∀ first, res.head? = some first → first.token_in = 1)
      ∧ (∀ lastHop, res.getLast? = some lastHop → lastHop.token_out = 3) := by
  have h : validate_route_and_add_info [100, 101]
      [SwapContractInfo.mk 100 1 2, SwapContractInfo.mk 101 2 3] 1 3
      = Except.ok [SwapInformation.mk 100 1 2, SwapInformation.mk 101 2 3] := by rfl
  have hp := validator_chains_tokens [100, 101]
    [SwapContractInfo.mk 100 1 2, SwapContractInfo.mk 101 2 3] 1 3
    [SwapInformation.mk 100 1 2, SwapInformation.mk 101 2 3] h
  exact ⟨_, h, hp.1, hp.2.2.1, hp.2.2.2⟩

/-- C3. Every `route_swap` input failing validation (empty route, route too
long, unknown pool, token-chain mismatch, or final output-token mismatch)
panics before any route id is allocated, before the route store is modified
and before any event is built: the contract state is exactly the entry state
and no event group is emitted. -/
theorem validation_failure_leaves_state (gc : GasConstants)
    (context : ContractContext) (state : RouterState)
    (swap_route : List Address) (token_in token_out : Address)
    (amount_in amount_out_minimum : TokenAmount)
    (h : swap_route = []
      ∨ ∃ e, validate_route_and_add_info swap_route state.swap_contracts
          token_in token_out = Except.error e) :
    invoke gc state (ContractInvocation.routeSwap context swap_route token_in
      token_out amount_in amount_out_minimum) = (state, []) := by
  rcases h with h | ⟨e, he⟩
  · subst h
    rfl
  · simp only [invoke, invokeRaw, route_swap]
    cases hemp : swap_route.isEmpty with
    | true => simp [hemp]
    | false => simp [hemp, he]

/-- Witness for C3: a concrete empty-route call returns the entry state and
no events. -/
theorem validation_failure_leaves_state_witness :
    invoke (GasConstants.mk 1 1 1 1 1 1 1)
      (RouterState.mk (Permission.mk []) [] RouteTracker.new)
      (ContractInvocation.routeSwap (ContractContext.mk 7 55) [] 1 3 500 90)
      = (RouterState.mk (Permission.mk []) [] RouteTracker.new, []) :=
  validation_failure_leaves_state (GasConstants.mk 1 1 1 1 1 1 1)
    (ContractContext.mk 7 55) (RouterState.mk (Permission.mk []) [] RouteTracker.new)
    [] 1 3 500 90 (Or.inl rfl)

theorem build_events_cancel_route_eq (b : EventGroup) (route : RouteInformation) :
    build_events_cancel_route b route =
      { interactions := b.interactions
          ++ route.locks_waiting_for_execution.map
            (fun l => Event.cancelLock l.swap_info.swap_address l.lock_id)
          ++ [Event.transfer route.initial_token_in route.user route.initial_amount_in],
        callback := some CallbackRpc.couldNotAcquireLockError,
        callbackCost := b.callbackCost } := by
  simp [build_events_cancel_route, cancel_fold, MPC20Contract.transfer,
    MPC20Contract.at_address, EventGroup.addInteraction,
    EventGroup.with_callback_rpc]

/-- C1. When a lock-acquisition callback reports failure, the handler builds
a single event batch holding exactly one cancel-lock call per acquired lock
of the route, in acquisition order, followed by a refund transfer of the
route's original `amount_in` in the original input token to the originating
user, followed by a callback to the handler that unconditionally panics. -/
theorem lock_failure_cancel_batch (gc : GasConstants)
    (callback_context : CallbackContext AcquiredLiquidityLockInformation)
    (state : RouterState) (route_id : RouteId) (route : RouteInformation)
    (hget : state.route_tracker.get_route route_id = some route)
    (hfail : callback_context.success = false) :
    invokeRaw gc state (ContractInvocation.lockRoute callback_context route_id)
      = Except.ok
        ({ state with route_tracker := { state.route_tracker with
            active_routes := state.route_tracker.active_routes.insert route_id route } },
         [{ interactions :=
              route.locks_waiting_for_execution.map
                (fun l => Event.cancelLock l.swap_info.swap_address l.lock_id)
              ++ [Event.transfer route.initial_token_in route.user route.initial_amount_in],
            callback := some CallbackRpc.couldNotAcquireLockError,
            callbackCost := none }])
    ∧ (∀ s2, invokeRaw gc s2 ContractInvocation.couldNotAcquireLock
        = Except.error "Could not acquire all locks in route.") := by
  constructor
  · simp only [invokeRaw, lock_route_callback, RouteTracker.modify_route, hget]
    simp only [lock_route_step, hfail, Bool.not_false, if_pos]
    simp [build_events_cancel_route_eq, EventGroup.builder]
  · intro s2
    rfl

/-- Witness for C1: a 2-hop route whose first lock was acquired and whose
second acquisition fails issues exactly one cancel-lock call, then the refund
of the original 500 tokens of token 1 to user 7, then the failing callback. -/
theorem lock_failure_cancel_batch_witness :
    invokeRaw (GasConstants.mk 1 1 1 1 1 1 1)
      (RouterState.mk (Permission.mk []) []
        (RouteTracker.mk 1 (AvlTreeMap.mk [(0, RouteInformation.mk 7 500 1 0 3
          [WantedLockInfo.mk (SwapInformation.mk 101 2 3) 450 90]
          [AcquiredLockInfo.mk (SwapInformation.mk 100 1 2) 5] none)])))
      (ContractInvocation.lockRoute (CallbackContext.mk false []) 0)
      = Except.ok
        (RouterState.mk (Permission.mk []) []
          (RouteTracker.mk 1 (AvlTreeMap.mk [(0, RouteInformation.mk 7 500 1 0 3
            [WantedLockInfo.mk (SwapInformation.mk 101 2 3) 450 90]
            [AcquiredLockInfo.mk (SwapInformation.mk 100 1 2) 5] none)])),
         [EventGroup.mk [Event.cancelLock 100 5, Event.transfer 1 7 500]
            (some CallbackRpc.couldNotAcquireLockError) none]) := by
  exact (lock_failure_cancel_batch (GasConstants.mk 1 1 1 1 1 1 1)
    (CallbackContext.mk false [])
    (RouterState.mk (Permission.mk []) []
      (RouteTracker.mk 1 (AvlTreeMap.mk [(0, RouteInformation.mk 7 500 1 0 3
        [WantedLockInfo.mk (SwapInformation.mk 101 2 3) 450 90]
        [AcquiredLockInfo.mk (SwapInformation.mk 100 1 2) 5] none)])))
    0
    (RouteInformation.mk 7 500 1 0 3
      [WantedLockInfo.mk (SwapInformation.mk 101 2 3) 450 90]
      [AcquiredLockInfo.mk (SwapInformation.mk 100 1 2) 5] none)
    rfl rfl).1

/-- C7. On a successful lock-acquisition callback carrying a result, the
handler pops exactly the front wanted lock, appends the corresponding
acquired lock at the back of the acquired-lock queue, and rewrites only the
new front wanted lock's `amount_in` to the realized `amount_out`; every other
element of both queues and every other field of the record is unchanged (in
particular the popped first hop's `amount_in` is removed, never rewritten). -/
theorem lock_acquired_advances_queues (gc : GasConstants)
    (callback_context : CallbackContext AcquiredLiquidityLockInformation)
    (state : RouterState) (route_id : RouteId) (route : RouteInformation)
    (res : AcquiredLiquidityLockInformation)
    (rs : List AcquiredLiquidityLockInformation)
    (w : WantedLockInfo) (rest : List WantedLockInfo)
    (hget : state.route_tracker.get_route route_id = some route)
    (hsucc : callback_context.success = true)
    (hres : callback_context.results = res :: rs)
    (hw : route.locks_wanted = w :: rest) :
    ∃ eg, invokeRaw gc state (ContractInvocation.lockRoute callback_context route_id)
      = Except.ok
        ({ state with route_tracker := { state.route_tracker with
            active_routes := state.route_tracker.active_routes.insert route_id
              { route with
                locks_wanted := rest.modifyHead
                  (fun l => { l with amount_in := res.amount_out }),
                locks_waiting_for_execution := route.locks_waiting_for_execution
                  ++ [AcquiredLockInfo.mk w.swap_info res.lock_id] } } },
         [eg]) := by
  have hpop : route.pop_next_wanted_lock = some (w, { route with locks_wanted := rest }) := by
    simp [RouteInformation.pop_next_wanted_lock, hw]
  cases rest with
  | nil =>
    cases hl : route.locks_waiting_for_execution with
    | nil =>
      refine ⟨build_execute_approve_events EventGroup.builder
        (AcquiredLockInfo.mk w.swap_info res.lock_id) route_id
        route.initial_amount_in, ?_⟩
      simp only [invokeRaw, lock_route_callback, RouteTracker.modify_route, hget]
      simp [lock_route_step, hsucc, hres, hpop, hl,
        RouteInformation.update_next_wanted_lock_amount_in,
        RouteInformation.update_next_pending_lock_id,
        RouteInformation.peek_next_wanted_lock,
        RouteInformation.peek_next_pending_lock]
    | cons p ps =>
      refine ⟨build_execute_approve_events EventGroup.builder p route_id
        route.initial_amount_in, ?_⟩
      simp only [invokeRaw, lock_route_callback, RouteTracker.modify_route, hget]
      simp [lock_route_step, hsucc, hres, hpop, hl,
        RouteInformation.update_next_wanted_lock_amount_in,
        RouteInformation.update_next_pending_lock_id,
        RouteInformation.peek_next_wanted_lock,
        RouteInformation.peek_next_pending_lock]
  | cons y t =>
    refine ⟨build_acquire_lock_events EventGroup.builder
      { y with amount_in := res.amount_out } route_id, ?_⟩
    simp only [invokeRaw, lock_route_callback, RouteTracker.modify_route, hget]
    simp [lock_route_step, hsucc, hres, hpop,
      RouteInformation.update_next_wanted_lock_amount_in,
      RouteInformation.update_next_pending_lock_id,
      RouteInformation.peek_next_wanted_lock,
      RouteInformation.peek_next_pending_lock]

/-- Witness for C7: acquiring the first lock of a concrete 2-hop route pops
hop 1 into the acquired queue with lock id 5 and rewrites hop 2's `amount_in`
to the realized output 450. -/
theorem lock_acquired_advances_queues_witness :
    ∃ eg, invokeRaw (GasConstants.mk 1 1 1 1 1 1 1)
      (RouterState.mk (Permission.mk []) []
        (RouteTracker.mk 1 (AvlTreeMap.mk [(0, RouteInformation.mk 7 500 1 0 3
          [WantedLockInfo.mk (SwapInformation.mk 100 1 2) 500 0,
           WantedLockInfo.mk (SwapInformation.mk 101 2 3) 0 90]
          [] none)])))
      (ContractInvocation.lockRoute
        (CallbackContext.mk true [AcquiredLiquidityLockInformation.mk 5 450]) 0)
      = Except.ok
        (RouterState.mk (Permission.mk []) []
          (RouteTracker.mk 1 (AvlTreeMap.mk [(0, RouteInformation.mk 7 500 1 0 3
            [WantedLockInfo.mk (SwapInformation.mk 101 2 3) 450 90]
            [AcquiredLockInfo.mk (SwapInformation.mk 100 1 2) 5] none)])),
         [eg]) := by
  exact lock_acquired_advances_queues (GasConstants.mk 1 1 1 1 1 1 1)
    (CallbackContext.mk true [AcquiredLiquidityLockInformation.mk 5 450])
    (RouterState.mk (Permission.mk []) []
      (RouteTracker.mk 1 (AvlTreeMap.mk [(0, RouteInformation.mk 7 500 1 0 3
        [WantedLockInfo.mk (SwapInformation.mk 100 1 2) 500 0,
         WantedLockInfo.mk (SwapInformation.mk 101 2 3) 0 90]
        [] none)])))
    0
    (RouteInformation.mk 7 500 1 0 3
      [WantedLockInfo.mk (SwapInformation.mk 100 1 2) 500 0,
       WantedLockInfo.mk (SwapInformation.mk 101 2 3) 0 90]
      [] none)
    (AcquiredLiquidityLockInformation.mk 5 450) []
    (WantedLockInfo.mk (SwapInformation.mk 100 1 2) 500 0)
    [WantedLockInfo.mk (SwapInformation.mk 101 2 3) 0 90]
    rfl rfl rfl rfl

/-- C8. For every non-empty hop list, registration builds a record whose
wanted-lock queue has exactly one entry per hop in route order, front
`amount_in` equal to the requested input amount, back `amount_out_minimum`
equal to the requested minimum output, an empty acquired-lock queue, zero
`final_received_amount`, no pending withdrawal, and user, initial token and
final token taken from the caller, first hop and last hop respectively. -/
theorem route_record_initial_shape (route : List SwapInformation)
    (initial_amount_in amount_out_minimum : TokenAmount) (user : Address)
    (h : route ≠ []) :
    ∃ r first lastHop,
      RouteInformation.new route initial_amount_in amount_out_minimum user = some r
      ∧ route.head? = some first
      ∧ route.getLast? = some lastHop
      ∧ r.locks_wanted.map (fun l => l.swap_info) = route
      ∧ r.locks_wanted.length = route.length
      ∧ r.locks_wanted.head?.map (fun l => l.amount_in) = some initial_amount_in
      ∧ r.locks_wanted.getLast?.map (fun l => l.amount_out_minimum)
          = some amount_out_minimum
      ∧ r.locks_waiting_for_execution = []
      ∧ r.final_received_amount = 0
      ∧ r.pending_withdraw = none
      ∧ r.user = user
      ∧ r.initial_amount_in = initial_amount_in
      ∧ r.initial_token_in = first.token_in
      ∧ r.final_token_out = lastHop.token_out := by
  obtain ⟨x, t, rfl⟩ : ∃ x t, route = x :: t := by
    cases route with
    | nil => exact absurd rfl h
    | cons x t => exact ⟨x, t, rfl⟩
  have hne : (x :: t) ≠ ([] : List SwapInformation) := by simp
  cases hlast : (x :: t).getLast? with
  | none =>
    rw [List.getLast?_eq_getLast_of_ne_nil hne] at hlast
    exact absurd hlast (by simp)
  | some lastHop =>
    have hmap : (modifyLast (fun l => { l with amount_out_minimum := amount_out_minimum })
        (List.modifyHead (fun l => { l with amount_in := initial_amount_in })
          ((x :: t).map (fun swap_info => WantedLockInfo.mk swap_info 0 0)))).map
        (fun l => l.swap_info) = x :: t := by
      rw [map_modifyLast
        (fun l : WantedLockInfo => { l with amount_out_minimum := amount_out_minimum })
        (fun l : WantedLockInfo => l.swap_info) (fun z => rfl)]
      rw [map_modifyHead
        (fun l : WantedLockInfo => { l with amount_in := initial_amount_in })
        (fun l : WantedLockInfo => l.swap_info) (fun z => rfl)]
      rw [List.map_map]
      have hcomp : ((fun l : WantedLockInfo => l.swap_info)
          ∘ (fun swap_info => WantedLockInfo.mk swap_info 0 0))
          = fun s : SwapInformation => s := rfl
      rw [hcomp]
      simp
    have hlen : (modifyLast (fun l => { l with amount_out_minimum := amount_out_minimum })
        (List.modifyHead (fun l => { l with amount_in := initial_amount_in })
          ((x :: t).map (fun swap_info => WantedLockInfo.mk swap_info 0 0)))).length
        = (x :: t).length := by
      rw [← List.length_map _ (fun l => l.swap_info), hmap]
    have hhead : (modifyLast (fun l => { l with amount_out_minimum := amount_out_minimum })
        (List.modifyHead (fun l => { l with amount_in := initial_amount_in })
          ((x :: t).map (fun swap_info => WantedLockInfo.mk swap_info 0 0)))).head?.map
        (fun l => l.amount_in) = some initial_amount_in := by
      rw [← List.head?_map, map_modifyLast
        (fun l : WantedLockInfo => { l with amount_out_minimum := amount_out_minimum })
        (fun l : WantedLockInfo => l.amount_in) (fun z => rfl), List.head?_map,
        head?_modifyHead]
      simp
    have hback : (modifyLast (fun l => { l with amount_out_minimum := amount_out_minimum })
        (List.modifyHead (fun l => { l with amount_in := initial_amount_in })
          ((x :: t).map (fun swap_info => WantedLockInfo.mk swap_info 0 0)))).getLast?.map
        (fun l => l.amount_out_minimum) = some amount_out_minimum := by
      rw [getLast?_modifyLast]
      cases hgl : (List.modifyHead (fun l => { l with amount_in := initial_amount_in })
          ((x :: t).map (fun swap_info => WantedLockInfo.mk swap_info 0 0))).getLast? with
      | none =>
        have hne2 : List.modifyHead (fun l => { l with amount_in := initial_amount_in })
            ((x :: t).map (fun swap_info => WantedLockInfo.mk swap_info 0 0)) ≠ [] := by
          simp [List.modifyHead]
        rw [List.getLast?_eq_getLast_of_ne_nil hne2] at hgl
        exact absurd hgl (by simp)
      | some z => simp
    refine ⟨{ user := user
              initial_amount_in := initial_amount_in
              initial_token_in := x.token_in
              final_received_amount := 0
              final_token_out := lastHop.token_out
              locks_wanted := modifyLast
                (fun l => { l with amount_out_minimum := amount_out_minimum })
                (List.modifyHead (fun l => { l with amount_in := initial_amount_in })
                  ((x :: t).map (fun swap_info => WantedLockInfo.mk swap_info 0 0)))
              locks_waiting_for_execution := []
              pending_withdraw := none },
      x, lastHop, ?_, rfl, rfl, hmap, hlen, hhead, hback, rfl, rfl, rfl, rfl,
      rfl, rfl, rfl⟩
    simp only [RouteInformation.new, List.head?_cons, hlast]

/-- Witness for C8: registration of a concrete 2-hop route produces exactly
the expected initial record. -/
theorem route_record_initial_shape_witness :
    ∃ r first lastHop,
      RouteInformation.new
        [SwapInformation.mk 100 1 2, SwapInformation.mk 101 2 3] 500 90 7 = some r
      ∧ [SwapInformation.mk 100 1 2, SwapInformation.mk 101 2 3].head? = some first
      ∧ [SwapInformation.mk 100 1 2, SwapInformation.mk 101 2 3].getLast? = some lastHop
      ∧ r.locks_wanted.map (fun l => l.swap_info)
          = [SwapInformation.mk 100 1 2, SwapInformation.mk 101 2 3]
      ∧ r.locks_wanted.length = 2
      ∧ r.locks_wanted.head?.map (fun l => l.amount_in) = some 500
      ∧ r.locks_wanted.getLast?.map (fun l => l.amount_out_minimum) = some 90
      ∧ r.locks_waiting_for_execution = []
      ∧ r.final_received_amount = 0
      ∧ r.pending_withdraw = none
      ∧ r.user = 7
      ∧ r.initial_amount_in = 500
      ∧ r.initial_token_in = first.token_in
      ∧ r.final_token_out = lastHop.token_out := by
  exact route_record_initial_shape
    [SwapInformation.mk 100 1 2, SwapInformation.mk 101 2 3] 500 90 7 (by simp)

theorem dropLast_modifyLast {α : Type} (f : α → α) :
    ∀ l : List α, (modifyLast f l).dropLast = l.dropLast
  | [] => rfl
  | [x] => by simp [modifyLast]
  | x :: y :: t => by
    cases t with
    | nil => simp [modifyLast, List.dropLast]
    | cons z zs =>
      have ih := dropLast_modifyLast f (y :: z :: zs)
      show (x :: modifyLast f (y :: z :: zs)).dropLast = _
      rw [show modifyLast f (y :: z :: zs)
          = y :: modifyLast f (z :: zs) from rfl] at ih ⊢
      simp only [List.dropLast] at ih ⊢
      rw [ih]

theorem RouteInformation.new_eq (x : SwapInformation) (t : List SwapInformation)
    (initial_amount_in amount_out_minimum : TokenAmount) (user : Address)
    (lastHop : SwapInformation) (hlast : (x :: t).getLast? = some lastHop) :
    RouteInformation.new (x :: t) initial_amount_in amount_out_minimum user
      = some { user := user
               initial_amount_in := initial_amount_in
               initial_token_in := x.token_in
               final_received_amount := 0
               final_token_out := lastHop.token_out
               locks_wanted := modifyLast
                 (fun l => { l with amount_out_minimum := amount_out_minimum })
                 (List.modifyHead (fun l => { l with amount_in := initial_amount_in })
                   ((x :: t).map (fun swap_info => WantedLockInfo.mk swap_info 0 0)))
               locks_waiting_for_execution := []
               pending_withdraw := none } := by
  simp only [RouteInformation.new, List.head?_cons, hlast]

theorem lock_route_step_route_characterization
    (callback_context : CallbackContext AcquiredLiquidityLockInformation)
    (route_id : RouteId) (route r' : RouteInformation) (eg : EventGroup)
    (h : lock_route_step callback_context route_id route = some (r', eg)) :
    (callback_context.success = false → r' = route)
    ∧ (callback_context.success = true → callback_context.results.head? = none →
        r' = route)
    ∧ (∀ res, callback_context.success = true →
        callback_context.results.head? = some res →
        ∃ w rest, route.locks_wanted = w :: rest
          ∧ r' = { route with
              locks_wanted := rest.modifyHead
                (fun l => { l with amount_in := res.amount_out }),
              locks_waiting_for_execution := route.locks_waiting_for_execution
                ++ [AcquiredLockInfo.mk w.swap_info res.lock_id] }) := by
  cases hsucc : callback_context.success with
  | false =>
    simp only [lock_route_step, hsucc, Bool.not_false, if_pos] at h
    obtain ⟨h1, h2⟩ : route = r' ∧ _ = eg := by simpa using h
    refine ⟨fun _ => h1.symm, ?_, ?_⟩
    · intro hc
      exact absurd hc (by simp)
    · intro res hc
      exact absurd hc (by simp)
  | true =>
    refine ⟨?_, ?_, ?_⟩
    · intro hc
      exact absurd hc (by simp)
    · intro _ hres
      simp only [lock_route_step, hsucc, Bool.not_true] at h
      rw [if_neg (by simp : ¬ (false = true))] at h
      simp only [hres] at h
      cases hpk : route.peek_next_wanted_lock with
      | some lock_info =>
        simp only [hpk] at h
        obtain ⟨h1, h2⟩ : route = r' ∧ _ = eg := by simpa using h
        exact h1.symm
      | none =>
        simp only [hpk] at h
        cases hpd : route.peek_next_pending_lock with
        | none =>
          simp only [hpd] at h
          exact absurd h (by simp)
        | some pending_lock =>
          simp only [hpd] at h
          obtain ⟨h1, h2⟩ : route = r' ∧ _ = eg := by simpa using h
          exact h1.symm
    · intro res _ hres
      simp only [lock_route_step, hsucc, Bool.not_true] at h
      rw [if_neg (by simp : ¬ (false = true))] at h
      simp only [hres] at h
      cases hlw : route.locks_wanted with
      | nil =>
        simp [RouteInformation.pop_next_wanted_lock, hlw] at h
      | cons w rest =>
        refine ⟨w, rest, rfl, ?_⟩
        have hpop : route.pop_next_wanted_lock
            = some (w, { route with locks_wanted := rest }) := by
          simp [RouteInformation.pop_next_wanted_lock, hlw]
        simp only [hpop, RouteInformation.update_next_wanted_lock_amount_in,
          RouteInformation.update_next_pending_lock_id] at h
        cases hpk : (List.modifyHead
            (fun l => { l with amount_in := res.amount_out }) rest).head? with
        | some lock_info =>
          simp only [RouteInformation.peek_next_wanted_lock, hpk] at h
          obtain ⟨h1, h2⟩ : _ = r' ∧ _ = eg := by simpa using h
          exact h1.symm
        | none =>
          simp only [RouteInformation.peek_next_wanted_lock, hpk] at h
          cases hpd : (route.locks_waiting_for_execution
              ++ [AcquiredLockInfo.mk w.swap_info res.lock_id]).head? with
          | none =>
            simp only [RouteInformation.peek_next_pending_lock, hpd] at h
            exact absurd h (by simp)
          | some pending_lock =>
            simp only [RouteInformation.peek_next_pending_lock, hpd] at h
            obtain ⟨h1, h2⟩ : _ = r' ∧ _ = eg := by simpa using h
            exact h1.symm

/-- C9. Only the final hop carries the user's minimum-output bound: route
registration creates every non-final wanted lock with `amount_out_minimum` 0,
the lock handler never changes a surviving lock's `amount_out_minimum` (it
only pops the front and rewrites the new front's `amount_in`), acquire-lock
calls carry the front lock's `amount_out_minimum`, and hence whenever the
front lock is not the last one its acquire call carries minimum 0. -/
theorem mem_dropLast_cons {α : Type} {x w : α} {l : List α}
    (h : x ∈ l.dropLast) : x ∈ (w :: l).dropLast := by
  cases l with
  | nil => simp at h
  | cons y ys =>
    have heq : (w :: y :: ys).dropLast = w :: (y :: ys).dropLast := by
      simp [List.dropLast]
    rw [heq]
    exact List.mem_cons_of_mem w h

theorem minszero_modifyHead (a0 : TokenAmount) (rest : List WantedLockInfo)
    (hz : ∀ lw ∈ rest.dropLast, lw.amount_out_minimum = 0) :
    ∀ lw ∈ (rest.modifyHead (fun l => { l with amount_in := a0 })).dropLast,
      lw.amount_out_minimum = 0 := by
  intro lw hlw
  cases rest with
  | nil => simp [List.modifyHead] at hlw
  | cons y ys =>
    simp only [List.modifyHead] at hlw
    cases ys with
    | nil => simp at hlw
    | cons z zs =>
      have hdl : ({ y with amount_in := a0 } :: z :: zs).dropLast
          = { y with amount_in := a0 } :: (z :: zs).dropLast := by
        simp [List.dropLast]
      rw [hdl] at hlw
      rcases List.mem_cons.mp hlw with h1 | h1
      · rw [h1]
        show y.amount_out_minimum = 0
        apply hz
        have heq : (y :: z :: zs).dropLast = y :: (z :: zs).dropLast := by
          simp [List.dropLast]
        rw [heq]
        exact List.mem_cons_self _ _
      · exact hz lw (mem_dropLast_cons h1)

theorem lock_route_step_min_shift
    (callback_context : CallbackContext AcquiredLiquidityLockInformation)
    (route_id : RouteId) (route r2 : RouteInformation) (eg : EventGroup)
    (h : lock_route_step callback_context route_id route = some (r2, eg)) :
    r2.locks_wanted = route.locks_wanted
    ∨ ∀ i, (r2.locks_wanted[i]?).map (fun l => l.amount_out_minimum)
        = (route.locks_wanted[i + 1]?).map (fun l => l.amount_out_minimum) := by
  obtain ⟨hfalse, hnone, hsome⟩ :=
    lock_route_step_route_characterization callback_context route_id route r2 eg h
  cases hsucc : callback_context.success with
  | false =>
    left
    rw [hfalse hsucc]
  | true =>
    cases hres : callback_context.results.head? with
    | none =>
      left
      rw [hnone hsucc hres]
    | some res =>
      obtain ⟨w, rest, hlw, hr⟩ := hsome res hsucc hres
      right
      intro i
      rw [hr]
      simp only
      rw [hlw, List.getElem?_cons_succ]
      cases rest with
      | nil => simp
      | cons y ys =>
        cases i with
        | zero => simp [List.modifyHead]
        | succ j => simp [List.modifyHead]

theorem lock_route_step_preserves_minszero
    (callback_context : CallbackContext AcquiredLiquidityLockInformation)
    (route_id : RouteId) (route r2 : RouteInformation) (eg : EventGroup)
    (h : lock_route_step callback_context route_id route = some (r2, eg))
    (hri : ∀ lw ∈ route.locks_wanted.dropLast, lw.amount_out_minimum = 0) :
    ∀ lw ∈ r2.locks_wanted.dropLast, lw.amount_out_minimum = 0 := by
  obtain ⟨hfalse, hnone, hsome⟩ :=
    lock_route_step_route_characterization callback_context route_id route r2 eg h
  cases hsucc : callback_context.success with
  | false =>
    intro lw hlw
    rw [hfalse hsucc] at hlw
    exact hri lw hlw
  | true =>
    cases hres : callback_context.results.head? with
    | none =>
      intro lw hlw
      rw [hnone hsucc hres] at hlw
      exact hri lw hlw
    | some res =>
      obtain ⟨w, rest, hlwq, hr⟩ := hsome res hsucc hres
      have hz : ∀ lw ∈ rest.dropLast, lw.amount_out_minimum = 0 := by
        intro lw hlw
        apply hri
        rw [hlwq]
        exact mem_dropLast_cons hlw
      intro lw hlw
      rw [hr] at hlw
      exact minszero_modifyHead res.amount_out rest hz lw hlw

theorem lock_route_step_events
    (callback_context : CallbackContext AcquiredLiquidityLockInformation)
    (route_id : RouteId) (route r2 : RouteInformation) (eg : EventGroup)
    (h : lock_route_step callback_context route_id route = some (r2, eg)) :
    ∀ sa ta : Address, ∀ aa ma : TokenAmount,
      Event.acquireSwapLock sa ta aa ma ∈ eg.interactions →
      ∃ w, r2.locks_wanted.head? = some w
        ∧ sa = w.swap_info.swap_address ∧ ta = w.swap_info.token_in
        ∧ aa = w.amount_in ∧ ma = w.amount_out_minimum := by
  intro sa ta aa ma hmem
  cases hsucc : callback_context.success with
  | false =>
    simp only [lock_route_step, hsucc, Bool.not_false, if_pos] at h
    obtain ⟨h1, h2⟩ : route = r2 ∧ _ = eg := by simpa using h
    rw [← h2] at hmem
    rw [build_events_cancel_route_eq] at hmem
    simp [EventGroup.builder] at hmem
  | true =>
    simp only [lock_route_step, hsucc, Bool.not_true] at h
    rw [if_neg (by simp : ¬ (false = true))] at h
    cases hres : callback_context.results.head? with
    | none =>
      simp only [hres] at h
      cases hpk : route.peek_next_wanted_lock with
      | some lock_info =>
        simp only [hpk] at h
        obtain ⟨h1, h2⟩ : route = r2 ∧ _ = eg := by simpa using h
        rw [← h2] at hmem
        simp [build_acquire_lock_events, SwapLockContract.acquire_swap_lock,
          SwapLockContract.at_address, EventGroup.addInteraction,
          EventGroup.with_callback_rpc, EventGroup.builder] at hmem
        refine ⟨lock_info, ?_, hmem.1, hmem.2.1, hmem.2.2.1, hmem.2.2.2⟩
        rw [← h1]
        exact hpk
      | none =>
        simp only [hpk] at h
        cases hpd : route.peek_next_pending_lock with
        | none =>
          simp only [hpd] at h
          exact absurd h (by simp)
        | some pending_lock =>
          simp only [hpd] at h
          obtain ⟨h1, h2⟩ : route = r2 ∧ _ = eg := by simpa using h
          rw [← h2] at hmem
          simp [build_execute_approve_events, build_max_approve_event_for_execute,
            MPC20Contract.approve, MPC20Contract.at_address,
            EventGroup.addInteraction, EventGroup.with_callback_rpc,
            EventGroup.builder] at hmem
    | some res =>
      simp only [hres] at h
      cases hlw : route.locks_wanted with
      | nil => simp [RouteInformation.pop_next_wanted_lock, hlw] at h
      | cons w rest =>
        have hpop : route.pop_next_wanted_lock
            = some (w, { route with locks_wanted := rest }) := by
          simp [RouteInformation.pop_next_wanted_lock, hlw]
        simp only [hpop, RouteInformation.update_next_wanted_lock_amount_in,
          RouteInformation.update_next_pending_lock_id] at h
        cases hpk : (List.modifyHead
            (fun l => { l with amount_in := res.amount_out }) rest).head? with
        | some lock_info =>
          simp only [RouteInformation.peek_next_wanted_lock, hpk] at h
          obtain ⟨h1, h2⟩ : _ = r2 ∧ _ = eg := by simpa using h
          rw [← h2] at hmem
          simp [build_acquire_lock_events, SwapLockContract.acquire_swap_lock,
            SwapLockContract.at_address, EventGroup.addInteraction,
            EventGroup.with_callback_rpc, EventGroup.builder] at hmem
          refine ⟨lock_info, ?_, hmem.1, hmem.2.1, hmem.2.2.1, hmem.2.2.2⟩
          rw [← h1]
          exact hpk
        | none =>
          simp only [RouteInformation.peek_next_wanted_lock, hpk] at h
          cases hpd : (route.locks_waiting_for_execution
              ++ [AcquiredLockInfo.mk w.swap_info res.lock_id]).head? with
          | none =>
            simp only [RouteInformation.peek_next_pending_lock, hpd] at h
            exact absurd h (by simp)
          | some pending_lock =>
            simp only [RouteInformation.peek_next_pending_lock, hpd] at h
            obtain ⟨h1, h2⟩ : _ = r2 ∧ _ = eg := by simpa using h
            rw [← h2] at hmem
            simp [build_execute_approve_events, build_max_approve_event_for_execute,
              MPC20Contract.approve, MPC20Contract.at_address,
              EventGroup.addInteraction, EventGroup.with_callback_rpc,
              EventGroup.builder] at hmem

theorem execute_route_step_spec (route_id : RouteId) (last_output : TokenAmount)
    (route r2 : RouteInformation) (eg : EventGroup)
    (h : execute_route_step route_id last_output route = some (r2, eg)) :
    r2 = route
    ∧ ∀ sa ta : Address, ∀ aa ma : TokenAmount,
        Event.acquireSwapLock sa ta aa ma ∉ eg.interactions := by
  simp only [execute_route_step] at h
  cases hpk : route.peek_next_pending_lock with
  | some pending_lock =>
    simp only [hpk] at h
    obtain ⟨h1, h2⟩ : route = r2 ∧ _ = eg := by simpa using h
    refine ⟨h1.symm, ?_⟩
    intro sa ta aa ma hmem
    rw [← h2] at hmem
    simp [build_execute_approve_events, build_max_approve_event_for_execute,
      MPC20Contract.approve, MPC20Contract.at_address,
      EventGroup.addInteraction, EventGroup.with_callback_rpc,
      EventGroup.builder] at hmem
  | none =>
    simp only [hpk] at h
    obtain ⟨h1, h2⟩ : route = r2 ∧ _ = eg := by simpa using h
    refine ⟨h1.symm, ?_⟩
    intro sa ta aa ma hmem
    rw [← h2] at hmem
    simp [MPC20Contract.transfer, MPC20Contract.at_address,
      EventGroup.addInteraction, EventGroup.builder] at hmem

theorem deposit_step_spec (route_id : RouteId) (route r2 : RouteInformation)
    (eg : EventGroup) (h : deposit_step route_id route = some (r2, eg)) :
    r2.locks_wanted = route.locks_wanted
    ∧ ∀ sa ta : Address, ∀ aa ma : TokenAmount,
        Event.acquireSwapLock sa ta aa ma ∉ eg.interactions := by
  cases hl : route.locks_waiting_for_execution with
  | nil => simp [deposit_step, RouteInformation.take_next_pending_lock, hl] at h
  | cons p ps =>
    have htake : route.take_next_pending_lock
        = some (p, { route with locks_waiting_for_execution := ps }) := by
      simp [RouteInformation.take_next_pending_lock, hl]
    simp only [deposit_step, htake] at h
    obtain ⟨h1, h2⟩ : _ = r2 ∧ _ = eg := by simpa using h
    constructor
    · rw [← h1]
      rfl
    · intro sa ta aa ma hmem
      rw [← h2] at hmem
      simp [SwapLockContract.execute_lock_swap, SwapLockContract.at_address,
        EventGroup.addInteraction, EventGroup.with_callback_rpc,
        EventGroup.builder] at hmem

theorem RouteTracker.modify_route_get {T : Type} (t : RouteTracker)
    (route_id : RouteId) (f : RouteInformation → Option (RouteInformation × T))
    (t2 : RouteTracker) (x : T)
    (h : t.modify_route route_id f = some (t2, x)) :
    ∃ route route2, t.get_route route_id = some route
      ∧ f route = some (route2, x)
      ∧ ∀ k, t2.active_routes.get k
          = if k = route_id then some route2 else t.active_routes.get k := by
  simp only [RouteTracker.modify_route] at h
  cases hget : t.get_route route_id with
  | none => simp [hget] at h
  | some route =>
    simp only [hget] at h
    cases hf : f route with
    | none => simp [hf] at h
    | some pr =>
      obtain ⟨route2, result_value⟩ := pr
      simp only [hf] at h
      obtain ⟨h1, h2⟩ : _ = t2 ∧ result_value = x := by simpa using h
      refine ⟨route, route2, rfl, ?_, ?_⟩
      · rw [hf, h2]
      · intro k
        rw [← h1]
        simp only [AvlTreeMap.get_insert]

theorem RouteTracker.add_route_get (t : RouteTracker)
    (route : List SwapInformation) (amount_in minimum_amount_out : TokenAmount)
    (user : Address) (route_id : RouteId) (t2 : RouteTracker)
    (h : t.add_route route amount_in minimum_amount_out user
      = some (route_id, t2)) :
    ∀ k, k ≠ t.next_route_id → t2.active_routes.get k = t.active_routes.get k := by
  simp only [RouteTracker.add_route, RouteTracker.nextRouteId] at h
  cases hnew : RouteInformation.new route amount_in minimum_amount_out user with
  | none => simp [hnew] at h
  | some route_info =>
    simp only [hnew, Option.map_some'] at h
    obtain ⟨h1, h2⟩ : t.next_route_id = route_id ∧ _ = t2 := by simpa using h
    intro k hk
    rw [← h2]
    simp only [AvlTreeMap.get_insert]
    rw [if_neg hk]

theorem min_preservation_via_modify {T : Type} (state : RouterState)
    (route_id : RouteId) (f : RouteInformation → Option (RouteInformation × T))
    (tracker2 : RouteTracker) (x : T)
    (hm : state.route_tracker.modify_route route_id f = some (tracker2, x))
    (hstep : ∀ routeF route2 y, f routeF = some (route2, y) →
      route2.locks_wanted = routeF.locks_wanted
      ∨ ∀ i, (route2.locks_wanted[i]?).map (fun l => l.amount_out_minimum)
          = (routeF.locks_wanted[i + 1]?).map (fun l => l.amount_out_minimum))
    (k : RouteId) (route route' : RouteInformation)
    (hget : state.route_tracker.active_routes.get k = some route)
    (hg : tracker2.active_routes.get k = some route') :
    route'.locks_wanted = route.locks_wanted
    ∨ ∀ i, (route'.locks_wanted[i]?).map (fun l => l.amount_out_minimum)
        = (route.locks_wanted[i + 1]?).map (fun l => l.amount_out_minimum) := by
  obtain ⟨routeF, route2, hgf, hf, hformula⟩ :=
    RouteTracker.modify_route_get _ _ _ _ _ hm
  rw [hformula k] at hg
  by_cases hkr : k = route_id
  · rw [if_pos hkr] at hg
    have h2 : route2 = route' := by simpa using hg
    have hF : route = routeF := by
      simp only [RouteTracker.get_route] at hgf
      rw [hkr] at hget
      rw [hget] at hgf
      simpa using hgf
    rw [← h2, hF]
    exact hstep routeF route2 x hf
  · rw [if_neg hkr] at hg
    have heq : route = route' := by
      rw [hget] at hg
      simpa using hg
    rw [← heq]
    exact Or.inl rfl

theorem new_minszero :
    ∀ (route : List SwapInformation) (a m : TokenAmount) (u : Address)
      (r : RouteInformation), RouteInformation.new route a m u = some r →
      ∀ lw ∈ r.locks_wanted.dropLast, lw.amount_out_minimum = 0 := by
  intro route a m u r hnew lw hmem
  cases route with
  | nil => simp [RouteInformation.new] at hnew
  | cons x t =>
    cases hlast : (x :: t).getLast? with
    | none =>
      rw [List.getLast?_eq_getLast_of_ne_nil (by simp : (x :: t) ≠ [])] at hlast
      exact absurd hlast (by simp)
    | some lastHop =>
      rw [RouteInformation.new_eq x t a m u lastHop hlast] at hnew
      injection hnew with hr
      subst hr
      rw [dropLast_modifyLast] at hmem
      have hmem2 := List.dropLast_subset _ hmem
      simp only [List.map_cons, List.modifyHead] at hmem2
      rcases List.mem_cons.mp hmem2 with h1 | h1
      · rw [h1]
      · obtain ⟨sw, _, heq⟩ := List.mem_map.mp h1
        rw [← heq]

theorem invokeRaw_min_preservation (gc : GasConstants) (state : RouterState)
    (op : ContractInvocation) (s2 : RouterState) (evs : List EventGroup)
    (h : invokeRaw gc state op = Except.ok (s2, evs))
    (hbelow : ∀ k2, (state.route_tracker.active_routes.get k2).isSome →
        k2 < state.route_tracker.next_route_id)
    (k : RouteId) (route route' : RouteInformation)
    (hget : state.route_tracker.active_routes.get k = some route)
    (hget2 : s2.route_tracker.active_routes.get k = some route') :
    route'.locks_wanted = route.locks_wanted
    ∨ ∀ i, (route'.locks_wanted[i]?).map (fun l => l.amount_out_minimum)
        = (route.locks_wanted[i + 1]?).map (fun l => l.amount_out_minimum) := by
  cases op with
  | routeSwap context swap_route token_in token_out amount_in amount_out_minimum =>
    simp only [invokeRaw] at h
    cases hemp : swap_route.isEmpty with
    | true => simp [route_swap, hemp] at h
    | false =>
      simp only [route_swap, hemp] at h
      rw [if_neg (by simp : ¬ (false = true))] at h
      cases hval : validate_route_and_add_info swap_route state.swap_contracts
          token_in token_out with
      | error e =>
        simp only [hval] at h
        exact absurd h (by simp)
      | ok routeV =>
        simp only [hval] at h
        cases hadd : state.route_tracker.add_route routeV amount_in
            amount_out_minimum context.sender with
        | none =>
          simp only [hadd] at h
          exact absurd h (by simp)
        | some pr =>
          obtain ⟨route_id, tracker2⟩ := pr
          simp only [hadd] at h
          cases hget3 : tracker2.get_route route_id with
          | none =>
            simp only [hget3] at h
            exact absurd h (by simp)
          | some route_information =>
            simp only [hget3] at h
            obtain ⟨h1, h2⟩ : _ = s2 ∧ _ = evs := by simpa using h
            have hk : k ≠ state.route_tracker.next_route_id :=
              Nat.ne_of_lt (hbelow k (by rw [hget]; rfl))
            have hg2 : tracker2.active_routes.get k = some route' := by
              rw [← h1] at hget2
              exact hget2
            rw [RouteTracker.add_route_get state.route_tracker routeV amount_in
              amount_out_minimum context.sender route_id tracker2 hadd k hk] at hg2
            have heq : route = route' := by
              rw [hget] at hg2
              simpa using hg2
            rw [← heq]
            exact Or.inl rfl
  | startLockChain callback_context route_id =>
    simp only [invokeRaw, start_lock_chain_callback] at h
    cases hs : callback_context.success with
    | false => simp [hs] at h
    | true =>
      simp only [hs] at h
      rw [if_neg (by simp)] at h
      cases hgr : state.route_tracker.get_route route_id with
      | none =>
        simp only [hgr] at h
        exact absurd h (by simp)
      | some routeR =>
        simp only [hgr] at h
        cases hpk : routeR.peek_next_wanted_lock with
        | none =>
          simp only [hpk] at h
          exact absurd h (by simp)
        | some lock_info =>
          simp only [hpk] at h
          obtain ⟨h1, h2⟩ : state = s2 ∧ _ = evs := by simpa using h
          rw [← h1] at hget2
          have heq : route = route' := by
            rw [hget] at hget2
            simpa using hget2
          rw [← heq]
          exact Or.inl rfl
  | lockRoute callback_context route_id =>
    simp only [invokeRaw, lock_route_callback] at h
    cases hm : state.route_tracker.modify_route route_id
        (lock_route_step callback_context route_id) with
    | none =>
      simp only [hm] at h
      exact absurd h (by simp)
    | some pr =>
      obtain ⟨tracker2, eg⟩ := pr
      simp only [hm] at h
      obtain ⟨h1, h2⟩ : _ = s2 ∧ _ = evs := by simpa using h
      have hg : tracker2.active_routes.get k = some route' := by
        rw [← h1] at hget2
        exact hget2
      exact min_preservation_via_modify state route_id _ tracker2 eg hm
        (fun routeF route2 y hf =>
          lock_route_step_min_shift callback_context route_id routeF route2 y hf)
        k route route' hget hg
  | executeRoute route_id last_output =>
    simp only [invokeRaw, execute_route_callback] at h
    cases hm : state.route_tracker.modify_route route_id
        (execute_route_step route_id last_output) with
    | none =>
      simp only [hm] at h
      exact absurd h (by simp)
    | some pr =>
      obtain ⟨tracker2, eg⟩ := pr
      simp only [hm] at h
      obtain ⟨h1, h2⟩ : _ = s2 ∧ _ = evs := by simpa using h
      have hg : tracker2.active_routes.get k = some route' := by
        rw [← h1] at hget2
        exact hget2
      refine min_preservation_via_modify state route_id _ tracker2 eg hm
        ?_ k route route' hget hg
      intro routeF route2 y hf
      exact Or.inl (by
        rw [(execute_route_step_spec route_id last_output routeF route2 y hf).1])
  | approveStep route_id last_output =>
    simp only [invokeRaw, approve_callback] at h
    cases hm : state.route_tracker.modify_route route_id
        (fun route_information =>
          route_information.peek_next_pending_lock.map
            (fun p => (route_information, p))) with
    | none =>
      simp only [hm] at h
      exact absurd h (by simp)
    | some pr =>
      obtain ⟨tracker2, pending_lock⟩ := pr
      simp only [hm] at h
      obtain ⟨h1, h2⟩ : _ = s2 ∧ _ = evs := by simpa using h
      have hg : tracker2.active_routes.get k = some route' := by
        rw [← h1] at hget2
        exact hget2
      refine min_preservation_via_modify state route_id _ tracker2 pending_lock hm
        ?_ k route route' hget hg
      intro routeF route2 y hf
      cases hpk : routeF.peek_next_pending_lock with
      | none => simp [hpk] at hf
      | some p =>
        simp only [hpk, Option.map_some'] at hf
        obtain ⟨hfa, hfb⟩ : routeF = route2 ∧ p = y := by simpa using hf
        exact Or.inl (by rw [← hfa])
  | depositStep route_id =>
    simp only [invokeRaw, deposit_callback] at h
    cases hm : state.route_tracker.modify_route route_id (deposit_step route_id) with
    | none =>
      simp only [hm] at h
      exact absurd h (by simp)
    | some pr =>
      obtain ⟨tracker2, eg⟩ := pr
      simp only [hm] at h
      obtain ⟨h1, h2⟩ : _ = s2 ∧ _ = evs := by simpa using h
      have hg : tracker2.active_routes.get k = some route' := by
        rw [← h1] at hget2
        exact hget2
      refine min_preservation_via_modify state route_id _ tracker2 eg hm
        ?_ k route route' hget hg
      intro routeF route2 y hf
      exact Or.inl (deposit_step_spec route_id routeF route2 y hf).1
  | receiveOutputAmount callback_context route_id =>
    simp only [invokeRaw, receive_output_amount_callback] at h
    cases hlast : callback_context.results.getLast? with
    | none =>
      simp only [hlast] at h
      exact absurd h (by simp)
    | some received_amount =>
      simp only [hlast] at h
      cases hm : state.route_tracker.modify_route route_id
          (fun route_information =>
            (route_information.update_final_amount_out received_amount).take_pending_withdraw.map
              (fun pr => (pr.2, pr.1))) with
      | none =>
        simp only [hm] at h
        exact absurd h (by simp)
      | some pr =>
        obtain ⟨tracker2, pending_withdraw⟩ := pr
        simp only [hm] at h
        obtain ⟨h1, h2⟩ : _ = s2 ∧ _ = evs := by simpa using h
        have hg : tracker2.active_routes.get k = some route' := by
          rw [← h1] at hget2
          exact hget2
        refine min_preservation_via_modify state route_id _ tracker2
          pending_withdraw hm ?_ k route route' hget hg
        intro routeF route2 y hf
        cases hpw : routeF.pending_withdraw with
        | none =>
          simp [RouteInformation.take_pending_withdraw,
            RouteInformation.update_final_amount_out, hpw] at hf
        | some pw =>
          simp only [RouteInformation.take_pending_withdraw,
            RouteInformation.update_final_amount_out, hpw,
            Option.map_some'] at hf
          obtain ⟨hfa, hfb⟩ : _ = route2 ∧ pw = y := by simpa using hf
          refine Or.inl ?_
          rw [← hfa]
  | couldNotAcquireLock =>
    simp [invokeRaw, could_not_acquire_lock_error] at h
  | addSwapContract context swap_address token_a_address token_b_address =>
    simp only [invokeRaw, add_swap_contract] at h
    cases hp : state.permission_add_swap.hasPermissionFor context.sender with
    | false =>
      simp only [hp] at h
      rw [if_neg (by simp)] at h
      exact absurd h (by simp)
    | true =>
      simp only [hp] at h
      rw [if_pos trivial] at h
      obtain ⟨h1, h2⟩ : _ = s2 ∧ evs = [] := by simpa using h
      rw [← h1] at hget2
      have heq : route = route' := by
        rw [hget] at hget2
        simpa using hget2
      rw [← heq]
      exact Or.inl rfl

theorem invokeRaw_acquire_min (gc : GasConstants) (state : RouterState)
    (op : ContractInvocation) (s2 : RouterState) (evs : List EventGroup)
    (h : invokeRaw gc state op = Except.ok (s2, evs))
    (hri : ∀ k2 route2, state.route_tracker.active_routes.get k2 = some route2 →
        ∀ lw ∈ route2.locks_wanted.dropLast, lw.amount_out_minimum = 0)
    (eg : EventGroup) (heg : eg ∈ evs)
    (sa ta : Address) (aa ma : TokenAmount)
    (hev : Event.acquireSwapLock sa ta aa ma ∈ eg.interactions) :
    ma = 0
    ∨ ∃ k2 route2 w,
        s2.route_tracker.active_routes.get k2 = some route2
        ∧ route2.locks_wanted = [w]
        ∧ sa = w.swap_info.swap_address ∧ ta = w.swap_info.token_in
        ∧ aa = w.amount_in ∧ ma = w.amount_out_minimum := by
  cases op with
  | routeSwap context swap_route token_in token_out amount_in amount_out_minimum =>
    simp only [invokeRaw] at h
    cases hemp : swap_route.isEmpty with
    | true => simp [route_swap, hemp] at h
    | false =>
      simp only [route_swap, hemp] at h
      rw [if_neg (by simp : ¬ (false = true))] at h
      cases hval : validate_route_and_add_info swap_route state.swap_contracts
          token_in token_out with
      | error e =>
        simp only [hval] at h
        exact absurd h (by simp)
      | ok routeV =>
        simp only [hval] at h
        cases hadd : state.route_tracker.add_route routeV amount_in
            amount_out_minimum context.sender with
        | none =>
          simp only [hadd] at h
          exact absurd h (by simp)
        | some pr =>
          obtain ⟨route_id, tracker2⟩ := pr
          simp only [hadd] at h
          cases hget3 : tracker2.get_route route_id with
          | none =>
            simp only [hget3] at h
            exact absurd h (by simp)
          | some route_information =>
            simp only [hget3] at h
            obtain ⟨h1, h2⟩ : _ = s2 ∧ _ = evs := by simpa using h
            rw [← h2] at heg
            rw [List.mem_singleton] at heg
            rw [heg] at hev
            simp [MPC20Contract.transfer_from, MPC20Contract.at_address,
              EventGroup.addInteraction, EventGroup.with_callback_rpc,
              EventGroup.with_cost, EventGroup.builder] at hev
  | startLockChain callback_context route_id =>
    simp only [invokeRaw, start_lock_chain_callback] at h
    cases hs : callback_context.success with
    | false => simp [hs] at h
    | true =>
      simp only [hs] at h
      rw [if_neg (by simp)] at h
      cases hgr : state.route_tracker.get_route route_id with
      | none =>
        simp only [hgr] at h
        exact absurd h (by simp)
      | some routeR =>
        simp only [hgr] at h
        cases hpk : routeR.peek_next_wanted_lock with
        | none =>
          simp only [hpk] at h
          exact absurd h (by simp)
        | some lock_info =>
          simp only [hpk] at h
          obtain ⟨h1, h2⟩ : state = s2 ∧ _ = evs := by simpa using h
          rw [← h2] at heg
          rw [List.mem_singleton] at heg
          rw [heg] at hev
          simp [build_acquire_lock_events, SwapLockContract.acquire_swap_lock,
            SwapLockContract.at_address, EventGroup.addInteraction,
            EventGroup.with_callback_rpc, EventGroup.builder] at hev
          have hgr2 : state.route_tracker.active_routes.get route_id
              = some routeR := by
            simp only [RouteTracker.get_route] at hgr
            exact hgr
          cases hql : routeR.locks_wanted with
          | nil =>
            simp only [RouteInformation.peek_next_wanted_lock, hql] at hpk
            exact absurd hpk (by simp)
          | cons w0 rest0 =>
            have hw0 : w0 = lock_info := by
              simp only [RouteInformation.peek_next_wanted_lock, hql] at hpk
              simpa using hpk
            cases rest0 with
            | nil =>
              right
              refine ⟨route_id, routeR, w0, ?_, hql, ?_, ?_, ?_, ?_⟩
              · rw [← h1]
                exact hgr2
              · rw [hw0]
                exact hev.1
              · rw [hw0]
                exact hev.2.1
              · rw [hw0]
                exact hev.2.2.1
              · rw [hw0]
                exact hev.2.2.2
            | cons y ys =>
              left
              have h0 : w0.amount_out_minimum = 0 := by
                apply hri route_id routeR hgr2
                have hdl : (w0 :: y :: ys).dropLast
                    = w0 :: (y :: ys).dropLast := by simp [List.dropLast]
                rw [hql, hdl]
                exact List.mem_cons_self _ _
              rw [hev.2.2.2, ← hw0]
              exact h0
  | lockRoute callback_context route_id =>
    simp only [invokeRaw, lock_route_callback] at h
    cases hm : state.route_tracker.modify_route route_id
        (lock_route_step callback_context route_id) with
    | none =>
      simp only [hm] at h
      exact absurd h (by simp)
    | some pr =>
      obtain ⟨tracker2, egStep⟩ := pr
      simp only [hm] at h
      obtain ⟨h1, h2⟩ : _ = s2 ∧ _ = evs := by simpa using h
      rw [← h2] at heg
      rw [List.mem_singleton] at heg
      rw [heg] at hev
      obtain ⟨routeF, route2, hgf, hf, hformula⟩ :=
        RouteTracker.modify_route_get _ _ _ _ _ hm
      obtain ⟨w, hhead, hfields⟩ :=
        lock_route_step_events callback_context route_id routeF route2 egStep hf
          sa ta aa ma hev
      have hgf2 : state.route_tracker.active_routes.get route_id
          = some routeF := by
        simp only [RouteTracker.get_route] at hgf
        exact hgf
      have hri2 : ∀ lw ∈ route2.locks_wanted.dropLast,
          lw.amount_out_minimum = 0 :=
        lock_route_step_preserves_minszero callback_context route_id routeF
          route2 egStep hf (hri route_id routeF hgf2)
      cases hql2 : route2.locks_wanted with
      | nil =>
        rw [hql2] at hhead
        exact absurd hhead (by simp)
      | cons w0 rest0 =>
        have hw0 : w0 = w := by
          rw [hql2] at hhead
          simpa using hhead
        cases rest0 with
        | nil =>
          right
          refine ⟨route_id, route2, w0, ?_, hql2, ?_, ?_, ?_, ?_⟩
          · rw [← h1]
            have := hformula route_id
            rw [if_pos rfl] at this
            exact this
          · rw [hw0]
            exact hfields.1
          · rw [hw0]
            exact hfields.2.1
          · rw [hw0]
            exact hfields.2.2.1
          · rw [hw0]
            exact hfields.2.2.2
        | cons y ys =>
          left
          have h0 : w0.amount_out_minimum = 0 := by
            apply hri2
            have hdl : (w0 :: y :: ys).dropLast
                = w0 :: (y :: ys).dropLast := by simp [List.dropLast]
            rw [hql2, hdl]
            exact List.mem_cons_self _ _
          rw [hfields.2.2.2, ← hw0]
          exact h0
  | executeRoute route_id last_output =>
    simp only [invokeRaw, execute_route_callback] at h
    cases hm : state.route_tracker.modify_route route_id
        (execute_route_step route_id last_output) with
    | none =>
      simp only [hm] at h
      exact absurd h (by simp)
    | some pr =>
      obtain ⟨tracker2, egStep⟩ := pr
      simp only [hm] at h
      obtain ⟨h1, h2⟩ : _ = s2 ∧ _ = evs := by simpa using h
      rw [← h2] at heg
      rw [List.mem_singleton] at heg
      rw [heg] at hev
      obtain ⟨routeF, route2, hgf, hf, hformula⟩ :=
        RouteTracker.modify_route_get _ _ _ _ _ hm
      exact absurd hev
        ((execute_route_step_spec route_id last_output routeF route2 egStep hf).2
          sa ta aa ma)
  | approveStep route_id last_output =>
    simp only [invokeRaw, approve_callback] at h
    cases hm : state.route_tracker.modify_route route_id
        (fun route_information =>
          route_information.peek_next_pending_lock.map
            (fun p => (route_information, p))) with
    | none =>
      simp only [hm] at h
      exact absurd h (by simp)
    | some pr =>
      obtain ⟨tracker2, pending_lock⟩ := pr
      simp only [hm] at h
      obtain ⟨h1, h2⟩ : _ = s2 ∧ _ = evs := by simpa using h
      rw [← h2] at heg
      rw [List.mem_singleton] at heg
      rw [heg] at hev
      simp [SwapContract.deposit, SwapContract.at_address,
        EventGroup.addInteraction, EventGroup.with_callback_rpc,
        EventGroup.builder] at hev
  | depositStep route_id =>
    simp only [invokeRaw, deposit_callback] at h
    cases hm : state.route_tracker.modify_route route_id (deposit_step route_id) with
    | none =>
      simp only [hm] at h
      exact absurd h (by simp)
    | some pr =>
      obtain ⟨tracker2, egStep⟩ := pr
      simp only [hm] at h
      obtain ⟨h1, h2⟩ : _ = s2 ∧ _ = evs := by simpa using h
      rw [← h2] at heg
      rw [List.mem_singleton] at heg
      rw [heg] at hev
      obtain ⟨routeF, route2, hgf, hf, hformula⟩ :=
        RouteTracker.modify_route_get _ _ _ _ _ hm
      exact absurd hev
        ((deposit_step_spec route_id routeF route2 egStep hf).2 sa ta aa ma)
  | receiveOutputAmount callback_context route_id =>
    simp only [invokeRaw, receive_output_amount_callback] at h
    cases hlast : callback_context.results.getLast? with
    | none =>
      simp only [hlast] at h
      exact absurd h (by simp)
    | some received_amount =>
      simp only [hlast] at h
      cases hm : state.route_tracker.modify_route route_id
          (fun route_information =>
            (route_information.update_final_amount_out received_amount).take_pending_withdraw.map
              (fun pr => (pr.2, pr.1))) with
      | none =>
        simp only [hm] at h
        exact absurd h (by simp)
      | some pr =>
        obtain ⟨tracker2, pending_withdraw⟩ := pr
        simp only [hm] at h
        obtain ⟨h1, h2⟩ : _ = s2 ∧ _ = evs := by simpa using h
        rw [← h2] at heg
        rw [List.mem_singleton] at heg
        rw [heg] at hev
        simp [SwapContract.withdraw, SwapContract.at_address,
          EventGroup.addInteraction, EventGroup.with_callback_rpc,
          EventGroup.builder] at hev
  | couldNotAcquireLock =>
    simp [invokeRaw, could_not_acquire_lock_error] at h
  | addSwapContract context swap_address token_a_address token_b_address =>
    simp only [invokeRaw, add_swap_contract] at h
    cases hp : state.permission_add_swap.hasPermissionFor context.sender with
    | false =>
      simp only [hp] at h
      rw [if_neg (by simp)] at h
      exact absurd h (by simp)
    | true =>
      simp only [hp] at h
      rw [if_pos trivial] at h
      obtain ⟨h1, h2⟩ : _ = s2 ∧ evs = [] := by simpa using h
      rw [h2] at heg
      exact absurd heg (by simp)

/-- C9. Only the final hop enforces the user's minimum-output bound:
(1) registration creates every non-final wanted lock with `amount_out_minimum`
0; (2) across EVERY contract operation, a route present before and after the
invocation keeps each surviving lock's `amount_out_minimum` unchanged — the
wanted queue is either untouched or popped once at the front, each remaining
lock keeping the minimum that same lock had before (only the new front's
`amount_in` is rewritten); (3) across every contract operation, every
acquire-lock call in the emitted events carries minimum output 0 unless it is
issued for a route whose single remaining wanted lock it is — the final
hop's acquisition. -/
theorem intermediate_min_out_zero (gc : GasConstants) :
    (∀ (route : List SwapInformation) (a m : TokenAmount) (u : Address)
        (r : RouteInformation), RouteInformation.new route a m u = some r →
      ∀ lw ∈ r.locks_wanted.dropLast, lw.amount_out_minimum = 0)
    ∧ (∀ (state : RouterState) (op : ContractInvocation) (k : RouteId)
        (route route' : RouteInformation),
        (∀ k2, (state.route_tracker.active_routes.get k2).isSome →
          k2 < state.route_tracker.next_route_id) →
        state.route_tracker.active_routes.get k = some route →
        (invoke gc state op).1.route_tracker.active_routes.get k = some route' →
        route'.locks_wanted = route.locks_wanted
        ∨ ∀ i, (route'.locks_wanted[i]?).map (fun l => l.amount_out_minimum)
            = (route.locks_wanted[i + 1]?).map (fun l => l.amount_out_minimum))
    ∧ (∀ (state : RouterState) (op : ContractInvocation) (eg : EventGroup)
        (sa ta : Address) (aa ma : TokenAmount),
        (∀ k2 route2, state.route_tracker.active_routes.get k2 = some route2 →
          ∀ lw ∈ route2.locks_wanted.dropLast, lw.amount_out_minimum = 0) →
        eg ∈ (invoke gc state op).2 →
        Event.acquireSwapLock sa ta aa ma ∈ eg.interactions →
        ma = 0
        ∨ ∃ k2 route2 w,
            (invoke gc state op).1.route_tracker.active_routes.get k2 = some route2
            ∧ route2.locks_wanted = [w]
            ∧ sa = w.swap_info.swap_address ∧ ta = w.swap_info.token_in
            ∧ aa = w.amount_in ∧ ma = w.amount_out_minimum) := by
  refine ⟨new_minszero, ?_, ?_⟩
  · intro state op k route route' hbelow hget hget2
    unfold invoke at hget2
    cases hriE : invokeRaw gc state op with
    | error e =>
      simp only [hriE] at hget2
      have heq : route = route' := by
        rw [hget] at hget2
        simpa using hget2
      rw [← heq]
      exact Or.inl rfl
    | ok pr =>
      obtain ⟨s2, evs⟩ := pr
      simp only [hriE] at hget2
      exact invokeRaw_min_preservation gc state op s2 evs hriE hbelow k route
        route' hget hget2
  · intro state op eg sa ta aa ma hall heg hev
    unfold invoke at heg ⊢
    cases hriE : invokeRaw gc state op with
    | error e =>
      simp only [hriE] at heg
      exact absurd heg (by simp)
    | ok pr =>
      obtain ⟨s2, evs⟩ := pr
      simp only [hriE] at heg ⊢
      exact invokeRaw_acquire_min gc state op s2 evs hriE hall eg heg sa ta aa
        ma hev

/-- Witness for C9: on a concrete 3-hop route whose first lock was just
acquired, the emitted acquire-lock call for the (non-final) second hop
carries minimum output 0, and the surviving locks keep their registered
minimums, shifted by the front pop. -/
theorem intermediate_min_out_zero_witness :
    ((0 : TokenAmount) = 0
      ∨ ∃ k2 route2 w,
          (invoke (GasConstants.mk 1 1 1 1 1 1 1)
            (RouterState.mk (Permission.mk []) []
              (RouteTracker.mk 1 (AvlTreeMap.mk [(0, RouteInformation.mk 7 500 1 0 4
                [WantedLockInfo.mk (SwapInformation.mk 100 1 2) 500 0,
                 WantedLockInfo.mk (SwapInformation.mk 101 2 3) 0 0,
                 WantedLockInfo.mk (SwapInformation.mk 102 3 4) 0 90] [] none)])))
            (ContractInvocation.lockRoute
              (CallbackContext.mk true [AcquiredLiquidityLockInformation.mk 5 450])
              0)).1.route_tracker.active_routes.get k2 = some route2
          ∧ route2.locks_wanted = [w]
          ∧ (101 : Address) = w.swap_info.swap_address
          ∧ (2 : Address) = w.swap_info.token_in
          ∧ (450 : TokenAmount) = w.amount_in
          ∧ (0 : TokenAmount) = w.amount_out_minimum)
    ∧ ((RouteInformation.mk 7 500 1 0 4
          [WantedLockInfo.mk (SwapInformation.mk 101 2 3) 450 0,
           WantedLockInfo.mk (SwapInformation.mk 102 3 4) 0 90]
          [AcquiredLockInfo.mk (SwapInformation.mk 100 1 2) 5] none).locks_wanted
        = (RouteInformation.mk 7 500 1 0 4
            [WantedLockInfo.mk (SwapInformation.mk 100 1 2) 500 0,
             WantedLockInfo.mk (SwapInformation.mk 101 2 3) 0 0,
             WantedLockInfo.mk (SwapInformation.mk 102 3 4) 0 90] [] none).locks_wanted
      ∨ ∀ i, ((RouteInformation.mk 7 500 1 0 4
            [WantedLockInfo.mk (SwapInformation.mk 101 2 3) 450 0,
             WantedLockInfo.mk (SwapInformation.mk 102 3 4) 0 90]
            [AcquiredLockInfo.mk (SwapInformation.mk 100 1 2) 5]
            none).locks_wanted[i]?).map (fun l => l.amount_out_minimum)
          = ((RouteInformation.mk 7 500 1 0 4
              [WantedLockInfo.mk (SwapInformation.mk 100 1 2) 500 0,
               WantedLockInfo.mk (SwapInformation.mk 101 2 3) 0 0,
               WantedLockInfo.mk (SwapInformation.mk 102 3 4) 0 90] []
              none).locks_wanted[i + 1]?).map (fun l => l.amount_out_minimum)) := by
  constructor
  · refine (intermediate_min_out_zero (GasConstants.mk 1 1 1 1 1 1 1)).2.2
      (RouterState.mk (Permission.mk []) []
        (RouteTracker.mk 1 (AvlTreeMap.mk [(0, RouteInformation.mk 7 500 1 0 4
          [WantedLockInfo.mk (SwapInformation.mk 100 1 2) 500 0,
           WantedLockInfo.mk (SwapInformation.mk 101 2 3) 0 0,
           WantedLockInfo.mk (SwapInformation.mk 102 3 4) 0 90] [] none)])))
      (ContractInvocation.lockRoute
        (CallbackContext.mk true [AcquiredLiquidityLockInformation.mk 5 450]) 0)
      (EventGroup.mk [Event.acquireSwapLock 101 2 450 0]
        (some (CallbackRpc.lockRouteCallback 0)) none)
      101 2 450 0 ?_ (by decide) (by decide)
    intro k2 route2 hg lw hlw
    by_cases hk : k2 = 0
    · subst hk
      have hR : RouteInformation.mk 7 500 1 0 4
          [WantedLockInfo.mk (SwapInformation.mk 100 1 2) 500 0,
           WantedLockInfo.mk (SwapInformation.mk 101 2 3) 0 0,
           WantedLockInfo.mk (SwapInformation.mk 102 3 4) 0 90] [] none
          = route2 := by
        simpa [AvlTreeMap.get, List.find?] using hg
      rw [← hR] at hlw
      revert lw
      decide
    · exfalso
      have hne : ¬ ((0 : Nat) = k2) := fun hh => hk hh.symm
      simp [AvlTreeMap.get, List.find?, hne] at hg
  · refine (intermediate_min_out_zero (GasConstants.mk 1 1 1 1 1 1 1)).2.1
      (RouterState.mk (Permission.mk []) []
        (RouteTracker.mk 1 (AvlTreeMap.mk [(0, RouteInformation.mk 7 500 1 0 4
          [WantedLockInfo.mk (SwapInformation.mk 100 1 2) 500 0,
           WantedLockInfo.mk (SwapInformation.mk 101 2 3) 0 0,
           WantedLockInfo.mk (SwapInformation.mk 102 3 4) 0 90] [] none)])))
      (ContractInvocation.lockRoute
        (CallbackContext.mk true [AcquiredLiquidityLockInformation.mk 5 450]) 0)
      0
      (RouteInformation.mk 7 500 1 0 4
        [WantedLockInfo.mk (SwapInformation.mk 100 1 2) 500 0,
         WantedLockInfo.mk (SwapInformation.mk 101 2 3) 0 0,
         WantedLockInfo.mk (SwapInformation.mk 102 3 4) 0 90] [] none)
      (RouteInformation.mk 7 500 1 0 4
        [WantedLockInfo.mk (SwapInformation.mk 101 2 3) 450 0,
         WantedLockInfo.mk (SwapInformation.mk 102 3 4) 0 90]
        [AcquiredLockInfo.mk (SwapInformation.mk 100 1 2) 5] none)
      ?_ rfl (by decide)
    intro k2 hk
    by_cases h0 : k2 = 0
    · rw [h0]
      decide
    · exfalso
      have hne : ¬ ((0 : Nat) = k2) := fun hh => h0 hh.symm
      simp [AvlTreeMap.get, List.find?, hne] at hk

/-- C10. The approval granted before each hop's deposit is always for
`TokenAmount::MAX`, regardless of the amount deposited: the approve event
built for execution carries `TokenAmountMAX`, while the chained realized
amount is used only for the deposit issued by the approval callback. -/
theorem approve_always_max :
    (∀ (b : EventGroup) (pending_lock : AcquiredLockInfo),
      (build_max_approve_event_for_execute b pending_lock).interactions
        = b.interactions ++ [Event.approve pending_lock.swap_info.token_in
            pending_lock.swap_info.swap_address TokenAmountMAX])
    ∧ (∀ (b : EventGroup) (pending_lock : AcquiredLockInfo) (route_id : RouteId)
        (approval_amount : TokenAmount),
        build_execute_approve_events b pending_lock route_id approval_amount
          = { interactions := b.interactions
                ++ [Event.approve pending_lock.swap_info.token_in
                    pending_lock.swap_info.swap_address TokenAmountMAX],
              callback := some (CallbackRpc.approveCallback route_id approval_amount),
              callbackCost := b.callbackCost })
    ∧ (∀ (state : RouterState) (route_id : RouteId) (last_output : TokenAmount)
        (s2 : RouterState) (egs : List EventGroup),
        approve_callback state route_id last_output = Except.ok (s2, egs) →
        ∃ route pending_lock,
          state.route_tracker.get_route route_id = some route
          ∧ route.peek_next_pending_lock = some pending_lock
          ∧ egs = [EventGroup.mk
              [Event.deposit pending_lock.swap_info.swap_address
                pending_lock.swap_info.token_in last_output]
              (some (CallbackRpc.depositCallback route_id)) none]) := by
  refine ⟨?_, ?_, ?_⟩
  · intro b pending_lock
    simp [build_max_approve_event_for_execute, MPC20Contract.approve,
      MPC20Contract.at_address, EventGroup.addInteraction]
  · intro b pending_lock route_id approval_amount
    simp [build_execute_approve_events, build_max_approve_event_for_execute,
      MPC20Contract.approve, MPC20Contract.at_address,
      EventGroup.addInteraction, EventGroup.with_callback_rpc]
  · intro state route_id last_output s2 egs h
    cases hget : state.route_tracker.get_route route_id with
    | none =>
      simp [approve_callback, RouteTracker.modify_route, hget] at h
    | some route =>
      cases hpk : route.peek_next_pending_lock with
      | none =>
        simp [approve_callback, RouteTracker.modify_route, hget, hpk] at h
      | some pending_lock =>
        refine ⟨route, pending_lock, rfl, hpk, ?_⟩
        simp only [approve_callback, RouteTracker.modify_route, hget, hpk,
          Option.map_some'] at h
        obtain ⟨h1, h2⟩ : _ = s2 ∧ _ = egs := by simpa using h
        rw [← h2]
        simp [SwapContract.deposit, SwapContract.at_address,
          EventGroup.addInteraction, EventGroup.with_callback_rpc,
          EventGroup.builder]

/-- Witness for C10: the approval callback of a concrete route deposits the
chained amount 450 while the stored pending lock is for pool 100. -/
theorem approve_always_max_witness :
    ∃ route pending_lock,
      (RouterState.mk (Permission.mk []) []
        (RouteTracker.mk 1 (AvlTreeMap.mk [(0, RouteInformation.mk 7 500 1 0 3 []
          [AcquiredLockInfo.mk (SwapInformation.mk 100 1 2) 5] none)]))).route_tracker.get_route 0
        = some route
      ∧ route.peek_next_pending_lock = some pending_lock
      ∧ [EventGroup.mk [Event.deposit 100 1 450]
          (some (CallbackRpc.depositCallback 0)) none]
        = [EventGroup.mk
            [Event.deposit pending_lock.swap_info.swap_address
              pending_lock.swap_info.token_in 450]
            (some (CallbackRpc.depositCallback 0)) none] := by
  exact approve_always_max.2.2
    (RouterState.mk (Permission.mk []) []
      (RouteTracker.mk 1 (AvlTreeMap.mk [(0, RouteInformation.mk 7 500 1 0 3 []
        [AcquiredLockInfo.mk (SwapInformation.mk 100 1 2) 5] none)])))
    0 450
    (RouterState.mk (Permission.mk []) []
      (RouteTracker.mk 1 (AvlTreeMap.mk [(0, RouteInformation.mk 7 500 1 0 3 []
        [AcquiredLockInfo.mk (SwapInformation.mk 100 1 2) 5] none)])))
    [EventGroup.mk [Event.deposit 100 1 450]
      (some (CallbackRpc.depositCallback 0)) none]
    rfl

/-- The happy-path gas total of C5's claim: start cost plus (n+1) times the
per-acquisition cost plus n times the per-hop execution cost (approve +
deposit + execute + withdraw, each with its callback cost) plus one final
transfer cost. Stated from the spec's wording, for comparison with
`calculate_min_total_gas_cost`. -/
def happy_path_total_cost (gc : GasConstants) (number_of_swaps : Nat) : GasCost :=
  INTERNAL_GAS_COST_START_LOCK_CHAIN_CALLBACK
    + (number_of_swaps + 1)
      * (gc.GAS_COST_ACQUIRE_SWAP_LOCK + INTERNAL_GAS_COST_LOCK_ROUTE_CALLBACK)
    + number_of_swaps
      * (gc.GAS_COST_APPROVE + INTERNAL_GAS_COST_APPROVE_CALLBACK
         + gc.GAS_COST_DEPOSIT + INTERNAL_GAS_COST_DEPOSIT_CALLBACK
         + gc.GAS_COST_EXECUTE_LOCK + INTERNAL_GAS_COST_RECEIVE_OUTPUT_AMOUNT_CALLBACK
         + gc.GAS_COST_WITHDRAW + INTERNAL_GAS_COST_EXECUTE_ROUTE_CALLBACK)
    + gc.GAS_COST_TRANSFER

/-- The abort-path gas total of C5's claim: start cost plus (n+1) times the
per-acquisition cost plus (n+1) times the cancellation cost plus the
error-callback cost. Stated from the spec's wording, for comparison with
`calculate_min_total_gas_cost`. -/
def abort_path_total_cost (gc : GasConstants) (number_of_swaps : Nat) : GasCost :=
  INTERNAL_GAS_COST_START_LOCK_CHAIN_CALLBACK
    + (number_of_swaps + 1)
      * (gc.GAS_COST_ACQUIRE_SWAP_LOCK + INTERNAL_GAS_COST_LOCK_ROUTE_CALLBACK)
    + (number_of_swaps + 1) * gc.GAS_COST_CANCEL_LOCK
    + INTERNAL_GAS_COST_CANCEL_LOCK_ERROR_CALLBACK

theorem max_congr_eq {a b c d : Nat} (h1 : a = c) (h2 : b = d) :
    max a b = max c d := by
  rw [h1, h2]

theorem calc_eq_max (gc : GasConstants) (n : Nat) :
    calculate_min_total_gas_cost gc n
      = max (happy_path_total_cost gc n) (abort_path_total_cost gc n) := by
  unfold calculate_min_total_gas_cost happy_path_total_cost abort_path_total_cost
  apply max_congr_eq
  · ring
  · ring

/-- C5. The gas budget attached to the initiating custody-transfer call of a
successful `route_swap` is `calculate_min_total_gas_cost` of the route
length, which for every `n` equals the maximum of the happy-path total and
the abort-path total, and in particular is at least both. -/
theorem gas_budget_is_max_of_paths (gc : GasConstants) :
    (∀ n, calculate_min_total_gas_cost gc n
        = max (happy_path_total_cost gc n) (abort_path_total_cost gc n)
      ∧ happy_path_total_cost gc n ≤ calculate_min_total_gas_cost gc n
      ∧ abort_path_total_cost gc n ≤ calculate_min_total_gas_cost gc n)
    ∧ (∀ (context : ContractContext) (state : RouterState)
        (swap_route : List Address) (token_in token_out : Address)
        (amount_in amount_out_minimum : TokenAmount)
        (s2 : RouterState) (egs : List EventGroup),
        route_swap gc context state swap_route token_in token_out amount_in
          amount_out_minimum = Except.ok (s2, egs) →
        ∃ route eg,
          validate_route_and_add_info swap_route state.swap_contracts token_in
            token_out = Except.ok route
          ∧ egs = [eg]
          ∧ eg.callbackCost = some (calculate_min_total_gas_cost gc route.length)) := by
  constructor
  · intro n
    have h := calc_eq_max gc n
    exact ⟨h, by rw [h]; exact le_max_left _ _, by rw [h]; exact le_max_right _ _⟩
  · intro context state swap_route token_in token_out amount_in amount_out_minimum
      s2 egs h
    cases hemp : swap_route.isEmpty with
    | true => simp [route_swap, hemp] at h
    | false =>
      simp only [route_swap, hemp] at h
      rw [if_neg (by simp : ¬ (false = true))] at h
      cases hval : validate_route_and_add_info swap_route state.swap_contracts
          token_in token_out with
      | error e =>
        simp only [hval] at h
        exact absurd h (by simp)
      | ok route =>
        simp only [hval] at h
        cases hadd : state.route_tracker.add_route route amount_in
            amount_out_minimum context.sender with
        | none =>
          simp only [hadd] at h
          exact absurd h (by simp)
        | some pr =>
          obtain ⟨route_id, tracker2⟩ := pr
          simp only [hadd] at h
          cases hget2 : tracker2.get_route route_id with
          | none =>
            simp only [hget2] at h
            exact absurd h (by simp)
          | some route_information =>
            simp only [hget2] at h
            obtain ⟨h1, h2⟩ : _ = s2 ∧ _ = egs := by simpa using h
            refine ⟨route, _, rfl, h2.symm, ?_⟩
            simp [EventGroup.with_cost, EventGroup.with_callback_rpc]

/-- Witness for C5: a concrete one-hop `route_swap` attaches the computed
budget 10507 to the custody-transfer call. -/
theorem gas_budget_is_max_of_paths_witness :
    ∃ route eg,
      validate_route_and_add_info [100] [SwapContractInfo.mk 100 1 2] 1 2
        = Except.ok route
      ∧ [EventGroup.mk [Event.transferFrom 1 7 55 500]
          (some (CallbackRpc.startLockChainCallback 0)) (some 10507)] = [eg]
      ∧ eg.callbackCost
        = some (calculate_min_total_gas_cost (GasConstants.mk 1 1 1 1 1 1 1)
            route.length) := by
  exact (gas_budget_is_max_of_paths (GasConstants.mk 1 1 1 1 1 1 1)).2
    (ContractContext.mk 7 55)
    (RouterState.mk (Permission.mk []) [SwapContractInfo.mk 100 1 2] RouteTracker.new)
    [100] 1 2 500 90
    (RouterState.mk (Permission.mk []) [SwapContractInfo.mk 100 1 2]
      (RouteTracker.mk 1 (AvlTreeMap.mk [(0, RouteInformation.mk 7 500 1 0 2
        [WantedLockInfo.mk (SwapInformation.mk 100 1 2) 500 90] [] none)])))
    [EventGroup.mk [Event.transferFrom 1 7 55 500]
      (some (CallbackRpc.startLockChainCallback 0)) (some 10507)]
    rfl

/-- C6. The gas budget calculator is strictly monotone in route length
(`budget (n+1) > budget n` for every `n ≥ 1`), and for every `n` the budget
is at least the computed cost of the all-cancel abort path. -/
theorem gas_budget_strictly_monotone (gc : GasConstants) :
    (∀ n, 1 ≤ n →
      calculate_min_total_gas_cost gc n < calculate_min_total_gas_cost gc (n + 1))
    ∧ (∀ n, abort_path_total_cost gc n ≤ calculate_min_total_gas_cost gc n) := by
  constructor
  · intro n _
    have heqH : happy_path_total_cost gc (n + 1)
        = happy_path_total_cost gc n
          + (gc.GAS_COST_ACQUIRE_SWAP_LOCK + INTERNAL_GAS_COST_LOCK_ROUTE_CALLBACK)
          + (gc.GAS_COST_APPROVE + INTERNAL_GAS_COST_APPROVE_CALLBACK
             + gc.GAS_COST_DEPOSIT + INTERNAL_GAS_COST_DEPOSIT_CALLBACK
             + gc.GAS_COST_EXECUTE_LOCK + INTERNAL_GAS_COST_RECEIVE_OUTPUT_AMOUNT_CALLBACK
             + gc.GAS_COST_WITHDRAW + INTERNAL_GAS_COST_EXECUTE_ROUTE_CALLBACK) := by
      simp only [happy_path_total_cost]
      ring
    have heqA : abort_path_total_cost gc (n + 1)
        = abort_path_total_cost gc n
          + (gc.GAS_COST_ACQUIRE_SWAP_LOCK + INTERNAL_GAS_COST_LOCK_ROUTE_CALLBACK)
          + gc.GAS_COST_CANCEL_LOCK := by
      simp only [abort_path_total_cost]
      ring
    have hApos : 0 < gc.GAS_COST_ACQUIRE_SWAP_LOCK
        + INTERNAL_GAS_COST_LOCK_ROUTE_CALLBACK :=
      Nat.lt_of_lt_of_le (by decide) (Nat.le_add_left 1500 _)
    have hH : happy_path_total_cost gc n < happy_path_total_cost gc (n + 1) := by
      rw [heqH]
      exact Nat.lt_of_lt_of_le (Nat.lt_add_of_pos_right hApos)
        (Nat.le_add_right _ _)
    have hA : abort_path_total_cost gc n < abort_path_total_cost gc (n + 1) := by
      rw [heqA]
      exact Nat.lt_of_lt_of_le (Nat.lt_add_of_pos_right hApos)
        (Nat.le_add_right _ _)
    rw [calc_eq_max, calc_eq_max]
    exact max_lt_max hH hA
  · intro n
    rw [calc_eq_max]
    exact le_max_right _ _

/-- Witness for C6: monotonicity at length 1 and the abort-path bound at
length 3, with concrete gas constants. -/
theorem gas_budget_strictly_monotone_witness :
    calculate_min_total_gas_cost (GasConstants.mk 1 1 1 1 1 1 1) 1
      < calculate_min_total_gas_cost (GasConstants.mk 1 1 1 1 1 1 1) 2
    ∧ abort_path_total_cost (GasConstants.mk 1 1 1 1 1 1 1) 3
      ≤ calculate_min_total_gas_cost (GasConstants.mk 1 1 1 1 1 1 1) 3 :=
  ⟨(gas_budget_strictly_monotone (GasConstants.mk 1 1 1 1 1 1 1)).1 1 (by decide),
   (gas_budget_strictly_monotone (GasConstants.mk 1 1 1 1 1 1 1)).2 3⟩

theorem RouteTracker.modify_route_spec {T : Type} (t : RouteTracker)
    (route_id : RouteId) (f : RouteInformation → Option (RouteInformation × T))
    (t2 : RouteTracker) (x : T)
    (h : t.modify_route route_id f = some (t2, x)) :
    t2.next_route_id = t.next_route_id
    ∧ ∀ k, (t2.active_routes.get k).isSome → (t.active_routes.get k).isSome := by
  simp only [RouteTracker.modify_route] at h
  cases hget : t.get_route route_id with
  | none => simp [hget] at h
  | some route =>
    simp only [hget] at h
    cases hf : f route with
    | none => simp [hf] at h
    | some pr =>
      obtain ⟨route2, result_value⟩ := pr
      simp only [hf] at h
      obtain ⟨h1, h2⟩ : _ = t2 ∧ result_value = x := by simpa using h
      constructor
      · rw [← h1]
      · intro k hk
        rw [← h1] at hk
        simp only [AvlTreeMap.get_insert] at hk
        by_cases hkk : k = route_id
        · rw [RouteTracker.get_route] at hget
          rw [hkk, hget]
          rfl
        · rw [if_neg hkk] at hk
          exact hk

theorem RouteTracker.add_route_spec (t : RouteTracker)
    (route : List SwapInformation) (amount_in minimum_amount_out : TokenAmount)
    (user : Address) (route_id : RouteId) (t2 : RouteTracker)
    (h : t.add_route route amount_in minimum_amount_out user
      = some (route_id, t2)) :
    route_id = t.next_route_id
    ∧ t2.next_route_id = t.next_route_id + 1
    ∧ (t2.active_routes.get t.next_route_id).isSome
    ∧ ∀ k, (t2.active_routes.get k).isSome →
        (t.active_routes.get k).isSome ∨ k = t.next_route_id := by
  simp only [RouteTracker.add_route, RouteTracker.nextRouteId] at h
  cases hnew : RouteInformation.new route amount_in minimum_amount_out user with
  | none => simp [hnew] at h
  | some route_info =>
    simp only [hnew, Option.map_some'] at h
    obtain ⟨h1, h2⟩ : t.next_route_id = route_id ∧ _ = t2 := by simpa using h
    subst h1
    refine ⟨rfl, ?_, ?_, ?_⟩
    · rw [← h2]
    · rw [← h2]
      simp [AvlTreeMap.get_insert]
    · intro k hk
      rw [← h2] at hk
      simp only [AvlTreeMap.get_insert] at hk
      by_cases hkk : k = t.next_route_id
      · exact Or.inr hkk
      · rw [if_neg hkk] at hk
        exact Or.inl hk

theorem invokeRaw_tracker_evolution (gc : GasConstants) (state : RouterState)
    (op : ContractInvocation) (s2 : RouterState) (evs : List EventGroup)
    (h : invokeRaw gc state op = Except.ok (s2, evs)) :
    state.route_tracker.next_route_id ≤ s2.route_tracker.next_route_id
    ∧ ∀ k, (s2.route_tracker.active_routes.get k).isSome →
        (state.route_tracker.active_routes.get k).isSome
        ∨ (state.route_tracker.next_route_id ≤ k
           ∧ k < s2.route_tracker.next_route_id) := by
  cases op with
  | routeSwap context swap_route token_in token_out amount_in amount_out_minimum =>
    simp only [invokeRaw] at h
    cases hemp : swap_route.isEmpty with
    | true => simp [route_swap, hemp] at h
    | false =>
      simp only [route_swap, hemp] at h
      rw [if_neg (by simp : ¬ (false = true))] at h
      cases hval : validate_route_and_add_info swap_route state.swap_contracts
          token_in token_out with
      | error e =>
        simp only [hval] at h
        exact absurd h (by simp)
      | ok route =>
        simp only [hval] at h
        cases hadd : state.route_tracker.add_route route amount_in
            amount_out_minimum context.sender with
        | none =>
          simp only [hadd] at h
          exact absurd h (by simp)
        | some pr =>
          obtain ⟨route_id, tracker2⟩ := pr
          simp only [hadd] at h
          obtain ⟨hid, hnext, _, hmem⟩ := RouteTracker.add_route_spec
            state.route_tracker route amount_in amount_out_minimum
            context.sender route_id tracker2 hadd
          cases hget2 : tracker2.get_route route_id with
          | none =>
            simp only [hget2] at h
            exact absurd h (by simp)
          | some route_information =>
            simp only [hget2] at h
            obtain ⟨h1, h2⟩ : _ = s2 ∧ _ = evs := by simpa using h
            rw [← h1]
            refine ⟨?_, ?_⟩
            · rw [hnext]
              exact Nat.le_succ _
            · intro k hk
              rcases hmem k hk with hk2 | hk2
              · exact Or.inl hk2
              · refine Or.inr ⟨le_of_eq hk2.symm, ?_⟩
                rw [hnext, hk2]
                exact Nat.lt_succ_self _
  | startLockChain callback_context route_id =>
    simp only [invokeRaw, start_lock_chain_callback] at h
    cases hs : callback_context.success with
    | false => simp [hs] at h
    | true =>
      simp only [hs] at h
      rw [if_neg (by simp)] at h
      cases hget : state.route_tracker.get_route route_id with
      | none =>
        simp only [hget] at h
        exact absurd h (by simp)
      | some route =>
        simp only [hget] at h
        cases hpk : route.peek_next_wanted_lock with
        | none =>
          simp only [hpk] at h
          exact absurd h (by simp)
        | some lock_info =>
          simp only [hpk] at h
          obtain ⟨h1, h2⟩ : state = s2 ∧ _ = evs := by simpa using h
          rw [← h1]
          exact ⟨le_refl _, fun k hk => Or.inl hk⟩
  | lockRoute callback_context route_id =>
    simp only [invokeRaw, lock_route_callback] at h
    cases hm : state.route_tracker.modify_route route_id
        (lock_route_step callback_context route_id) with
    | none =>
      simp only [hm] at h
      exact absurd h (by simp)
    | some pr =>
      obtain ⟨tracker2, eg⟩ := pr
      simp only [hm] at h
      obtain ⟨hnext, hmem⟩ := RouteTracker.modify_route_spec state.route_tracker
        route_id _ tracker2 eg hm
      obtain ⟨h1, h2⟩ : _ = s2 ∧ _ = evs := by simpa using h
      rw [← h1]
      exact ⟨le_of_eq hnext.symm, fun k hk => Or.inl (hmem k hk)⟩
  | executeRoute route_id last_output =>
    simp only [invokeRaw, execute_route_callback] at h
    cases hm : state.route_tracker.modify_route route_id
        (execute_route_step route_id last_output) with
    | none =>
      simp only [hm] at h
      exact absurd h (by simp)
    | some pr =>
      obtain ⟨tracker2, eg⟩ := pr
      simp only [hm] at h
      obtain ⟨hnext, hmem⟩ := RouteTracker.modify_route_spec state.route_tracker
        route_id _ tracker2 eg hm
      obtain ⟨h1, h2⟩ : _ = s2 ∧ _ = evs := by simpa using h
      rw [← h1]
      exact ⟨le_of_eq hnext.symm, fun k hk => Or.inl (hmem k hk)⟩
  | approveStep route_id last_output =>
    simp only [invokeRaw, approve_callback] at h
    cases hm : state.route_tracker.modify_route route_id
        (fun route_information =>
          route_information.peek_next_pending_lock.map
            (fun p => (route_information, p))) with
    | none =>
      simp only [hm] at h
      exact absurd h (by simp)
    | some pr =>
      obtain ⟨tracker2, pending_lock⟩ := pr
      simp only [hm] at h
      obtain ⟨hnext, hmem⟩ := RouteTracker.modify_route_spec state.route_tracker
        route_id _ tracker2 pending_lock hm
      obtain ⟨h1, h2⟩ : _ = s2 ∧ _ = evs := by simpa using h
      rw [← h1]
      exact ⟨le_of_eq hnext.symm, fun k hk => Or.inl (hmem k hk)⟩
  | depositStep route_id =>
    simp only [invokeRaw, deposit_callback] at h
    cases hm : state.route_tracker.modify_route route_id (deposit_step route_id) with
    | none =>
      simp only [hm] at h
      exact absurd h (by simp)
    | some pr =>
      obtain ⟨tracker2, eg⟩ := pr
      simp only [hm] at h
      obtain ⟨hnext, hmem⟩ := RouteTracker.modify_route_spec state.route_tracker
        route_id _ tracker2 eg hm
      obtain ⟨h1, h2⟩ : _ = s2 ∧ _ = evs := by simpa using h
      rw [← h1]
      exact ⟨le_of_eq hnext.symm, fun k hk => Or.inl (hmem k hk)⟩
  | receiveOutputAmount callback_context route_id =>
    simp only [invokeRaw, receive_output_amount_callback] at h
    cases hlast : callback_context.results.getLast? with
    | none =>
      simp only [hlast] at h
      exact absurd h (by simp)
    | some received_amount =>
      simp only [hlast] at h
      cases hm : state.route_tracker.modify_route route_id
          (fun route_information =>
            (route_information.update_final_amount_out received_amount).take_pending_withdraw.map
              (fun pr => (pr.2, pr.1))) with
      | none =>
        simp only [hm] at h
        exact absurd h (by simp)
      | some pr =>
        obtain ⟨tracker2, pending_withdraw⟩ := pr
        simp only [hm] at h
        obtain ⟨hnext, hmem⟩ := RouteTracker.modify_route_spec state.route_tracker
          route_id _ tracker2 pending_withdraw hm
        obtain ⟨h1, h2⟩ : _ = s2 ∧ _ = evs := by simpa using h
        rw [← h1]
        exact ⟨le_of_eq hnext.symm, fun k hk => Or.inl (hmem k hk)⟩
  | couldNotAcquireLock =>
    simp [invokeRaw, could_not_acquire_lock_error] at h
  | addSwapContract context swap_address token_a_address token_b_address =>
    simp only [invokeRaw, add_swap_contract] at h
    cases hp : state.permission_add_swap.hasPermissionFor context.sender with
    | false =>
      simp only [hp] at h
      rw [if_neg (by simp)] at h
      exact absurd h (by simp)
    | true =>
      simp only [hp] at h
      rw [if_pos trivial] at h
      obtain ⟨h1, h2⟩ : _ = s2 ∧ evs = [] := by simpa using h
      rw [← h1]
      exact ⟨le_refl _, fun k hk => Or.inl hk⟩

/-- C4. Route ids are strictly increasing and never reused: the tracker
starts at 0 (so the first registered route receives id 0), `add_route`
returns the current counter value, stores the route under it and increments
the counter by exactly one, and no contract operation ever decreases the
counter or makes a route id member of the store that was not already a
member unless it is at least the pre-invocation counter (hence never a
previously allocated id). -/
theorem route_ids_strictly_increasing (gc : GasConstants) :
    RouteTracker.new.next_route_id = 0
    ∧ (∀ (context : ContractContext) (permission_add_swap : Permission)
        (swap_contracts : List SwapContractInfo),
        (initializeContract context permission_add_swap swap_contracts).1.route_tracker
          = RouteTracker.new)
    ∧ (∀ (t : RouteTracker) (route : List SwapInformation)
        (amount_in minimum_amount_out : TokenAmount) (user : Address)
        (route_id : RouteId) (t2 : RouteTracker),
        t.add_route route amount_in minimum_amount_out user = some (route_id, t2) →
        route_id = t.next_route_id
        ∧ t2.next_route_id = t.next_route_id + 1
        ∧ (t2.active_routes.get t.next_route_id).isSome)
    ∧ (∀ (state : RouterState) (op : ContractInvocation),
        state.route_tracker.next_route_id
          ≤ (invoke gc state op).1.route_tracker.next_route_id)
    ∧ (∀ (state : RouterState) (op : ContractInvocation) (k : RouteId),
        ((invoke gc state op).1.route_tracker.active_routes.get k).isSome →
        (state.route_tracker.active_routes.get k).isSome
        ∨ (state.route_tracker.next_route_id ≤ k
           ∧ k < (invoke gc state op).1.route_tracker.next_route_id)) := by
  refine ⟨rfl, fun _ _ _ => rfl, ?_, ?_, ?_⟩
  · intro t route amount_in minimum_amount_out user route_id t2 h
    obtain ⟨h1, h2, h3, _⟩ := RouteTracker.add_route_spec t route amount_in
      minimum_amount_out user route_id t2 h
    exact ⟨h1, h2, h3⟩
  · intro state op
    unfold invoke
    cases hri : invokeRaw gc state op with
    | error e => exact le_refl _
    | ok pr =>
      obtain ⟨s2, evs⟩ := pr
      exact (invokeRaw_tracker_evolution gc state op s2 evs hri).1
  · intro state op k
    unfold invoke
    cases hri : invokeRaw gc state op with
    | error e => exact fun hk => Or.inl hk
    | ok pr =>
      obtain ⟨s2, evs⟩ := pr
      exact (invokeRaw_tracker_evolution gc state op s2 evs hri).2 k

/-- Witness for C4: registering a concrete route on a fresh tracker yields
id 0, stores the route under id 0 and bumps the counter to 1. -/
theorem route_ids_strictly_increasing_witness :
    (0 : RouteId) = RouteTracker.new.next_route_id
    ∧ (RouteTracker.mk 1 (AvlTreeMap.mk [(0, RouteInformation.mk 7 500 1 0 2
        [WantedLockInfo.mk (SwapInformation.mk 100 1 2) 500 90] [] none)])).next_route_id
        = RouteTracker.new.next_route_id + 1
    ∧ ((RouteTracker.mk 1 (AvlTreeMap.mk [(0, RouteInformation.mk 7 500 1 0 2
        [WantedLockInfo.mk (SwapInformation.mk 100 1 2) 500 90] [] none)])).active_routes.get
        RouteTracker.new.next_route_id).isSome := by
  exact (route_ids_strictly_increasing (GasConstants.mk 1 1 1 1 1 1 1)).2.2.1
    RouteTracker.new [SwapInformation.mk 100 1 2] 500 90 7 0
    (RouteTracker.mk 1 (AvlTreeMap.mk [(0, RouteInformation.mk 7 500 1 0 2
      [WantedLockInfo.mk (SwapInformation.mk 100 1 2) 500 90] [] none)]))
    rfl

end SwapRouter
